import Mathlib

/-!
Verification of the crew-board task manager (Rust) against its specification.

This file shallowly embeds the core of the program:

* src/data/task.rs  — task reconciliation (load_tasks, load_registry,
  append_to_registry, TaskState, RegistryEntry, LoadedTask, TaskMetadata);
* src/worktree.rs   — identifier allocation (get_next_task_id), branch naming
  (slugify, generate_branch_name), preview and create_worktree;
* src/cleanup.rs    — execute_cleanup;
* src/app.rs        — the background-operation poll functions
  (create_popup_check_completion, cleanup_popup_check_completion).

Filesystem and process state is modelled as an explicit snapshot: a directory
listing is a list of entries, each fallible read or parse is an Option (none =
the read or parse failed), and each external command outcome is a field of a
world record.  Machine integers are Nat with the explicit bounds the Rust
parse functions enforce.  Mutating operations additionally return the list of
filesystem/VCS effects they attempted, in program order.
-/

/-! ### Rust string primitives -/

/-- Decimal digit character, as Rust formats digits: code point 48 + d. -/
def digitChar (d : Nat) : Char := Char.ofNat (48 + d)

/-- Value of one ASCII decimal digit character, if it is one. -/
def digitVal? (c : Char) : Option Nat :=
  if 48 ≤ c.toNat ∧ c.toNat ≤ 57 then some (c.toNat - 48) else none

/-- Accumulating decimal evaluation of a character list; fails on the first
non-ASCII-digit character. -/
def decValueAux : List Char → Nat → Option Nat
  | [], acc => some acc
  | c :: cs, acc =>
    match digitVal? c with
    | some d => decValueAux cs (10 * acc + d)
    | none => none

/-- Decimal value of a non-empty all-ASCII-digit character list. -/
def decValue? : List Char → Option Nat
  | [] => none
  | c :: cs => decValueAux (c :: cs) 0

/-- Strip a literal character-list from the front, as str::strip in Rust. -/
def stripChars : List Char → List Char → Option (List Char)
  | [], cs => some cs
  | _ :: _, [] => none
  | p :: ps, c :: cs => if c = p then stripChars ps cs else none

/-- Rust u32::from_str: optional leading plus sign, then one or more ASCII
digits, value below 2^32. -/
def rustParseU32Chars (cs : List Char) : Option Nat :=
  let cs := match cs with
    | '+' :: rest => rest
    | _ => cs
  match decValue? cs with
  | some v => if v < 4294967296 then some v else none
  | none => none

/-- Rust usize::from_str on a 64-bit target. -/
def rustParseUsizeChars (cs : List Char) : Option Nat :=
  let cs := match cs with
    | '+' :: rest => rest
    | _ => cs
  match decValue? cs with
  | some v => if v < 18446744073709551616 then some v else none
  | none => none

/-- Combined effect of the Rust regex match against TASK_ followed by digits
anchored at both ends, and u32 parsing of the captured digits, as
get_next_task_id and load_tasks apply to a directory name.  A name passes both
exactly when the remainder after TASK_ is non-empty, all ASCII digits, with
value below 2^32 (a Unicode digit accepted by the regex still fails the ASCII
u32 parse, so the combined result is the same). -/
def taskDirNum? (name : String) : Option Nat :=
  match stripChars ("TASK_".data) name.data with
  | none => none
  | some rest =>
    match decValue? rest with
    | some v => if v < 4294967296 then some v else none
    | none => none

/-- Numeric suffix of a registry key: strip_prefix of TASK_ then
u32 parse (which, unlike the directory regex, tolerates a leading plus). -/
def registryKeyNum? (k : String) : Option Nat :=
  match stripChars ("TASK_".data) k.data with
  | none => none
  | some rest => rustParseU32Chars rest

/-- Decimal digit characters of n, most significant first, accumulator form
with explicit fuel (the fuel n + 1 always suffices, as in the core
implementation of decimal formatting; structural recursion on the fuel keeps
the function kernel-reducible). -/
def natDecCharsFuel : Nat → Nat → List Char → List Char
  | 0, _, acc => acc
  | fuel + 1, n, acc =>
    if n < 10 then digitChar n :: acc
    else natDecCharsFuel fuel (n / 10) (digitChar (n % 10) :: acc)

/-- Decimal digit characters of n, most significant first. -/
def natDecChars (n : Nat) : List Char := natDecCharsFuel (n + 1) n []

/-- Zero-pad the decimal form of n to at least three characters, as the Rust
format specifier 03 does (widening naturally past 999). -/
def pad3Chars (n : Nat) : List Char :=
  let ds := natDecChars n
  List.replicate (3 - ds.length) '0' ++ ds

/-- The textual task identifier TASK_ plus the zero-padded 3-digit number. -/
def formatTaskId (n : Nat) : String := "TASK_" ++ String.mk (pad3Chars n)

/-- Rust byte-lexicographic order on strings, expressed on the character
lists (UTF-8 byte order coincides with code-point order). -/
def charsLtB : List Char → List Char → Bool
  | [], [] => false
  | [], _ :: _ => true
  | _ :: _, [] => false
  | a :: as, b :: bs =>
    if a.toNat < b.toNat then true
    else if b.toNat < a.toNat then false
    else charsLtB as bs

/-- Strict string order used by the Rust Ord instance for String. -/
def strLtB (a b : String) : Bool := charsLtB a.data b.data

/-- Reflexive string order (a is less than or equal to b). -/
def strLeB (a b : String) : Bool := ! strLtB b a

/-- Propositional form of strLeB, for the sorting lemmas. -/
def strLeProp (a b : String) : Prop := strLeB a b = true

instance : DecidableRel strLeProp := fun a b => by
  unfold strLeProp
  infer_instance

/-- Path join, as Rust Path::join renders for our string-level paths. -/
def joinPath (a b : String) : String := a ++ "/" ++ b

/-- Unicode White_Space code points: the set matched by the Rust regex class
backslash-s and by char::is_whitespace. -/
def isRustWhitespaceChar (c : Char) : Bool :=
  [9, 10, 11, 12, 13, 32, 133, 160, 5760, 8192, 8193, 8194, 8195, 8196, 8197,
    8198, 8199, 8200, 8201, 8202, 8232, 8233, 8239, 8287, 12288].contains c.toNat

/-- Rust str::trim, dropping White_Space characters at both ends. -/
def rustTrim (s : String) : String :=
  String.mk (((s.data.dropWhile isRustWhitespaceChar).reverse.dropWhile
    isRustWhitespaceChar).reverse)

/-! ### Data model (src/data/task.rs)

Structure fields carry the serde defaults as Lean field defaults, so an
omitted field reads exactly as the Rust Default derive produces it.  Fields of
type serde_json::Value in the Rust structs (review_issues, human_decisions,
concerns, cost_summary, optional_phase_reasons and the like) are parsed
opaquely, never read by any function modelled here, and are omitted. -/

/-- Launch metadata stored inside a worktree binding. -/
structure LaunchInfo where
  terminal_env : String := ""
  ai_host : String := ""
  launched_at : String := ""
  worktree_abs_path : String := ""
  color_scheme : String := ""
deriving DecidableEq

/-- Worktree binding stored in state.json. -/
structure WorktreeInfo where
  status : String := ""
  path : String := ""
  branch : String := ""
  base_branch : String := ""
  color_scheme_index : Nat := 0
  created_at : String := ""
  launch : Option LaunchInfo := none
deriving DecidableEq

/-- The per-task primary state document (state.json), restricted to the
fields the reconciliation and provisioning code reads or writes. -/
structure TaskState where
  task_id : String := ""
  phase : Option String := none
  phases_completed : List String := []
  iteration : Nat := 0
  description : String := ""
  worktree : Option WorktreeInfo := none
  status : Option String := none
  created_at : String := ""
  updated_at : String := ""
deriving DecidableEq

/-- The legacy fallback document metadata.json written by external setup
scripts. -/
structure TaskMetadata where
  task_id : String := ""
  description : String := ""
  jira_key : String := ""
  branch_name : String := ""
  base_branch : String := ""
  worktree_path : String := ""
  created_at : String := ""
deriving DecidableEq

/-- One line of the append-only registry file .registry.jsonl. -/
structure RegistryEntry where
  task_id : String
  description : String := ""
  branch : String := ""
  created_at : String := ""
deriving DecidableEq

/-- A loaded task, live (from state.json) or archived (reconstructed). -/
structure LoadedTask where
  dir : String
  state : TaskState
  archived : Bool
  jira_key : Option String
deriving DecidableEq

/-- Snapshot of one directory entry of the task store.  The outer Option of
stateFile and metaFile is file existence; the inner Option is readability plus
parse success (none = the file exists but reading or JSON-decoding it fails,
which the Rust code treats identically). -/
structure DirEntry where
  name : String
  isDir : Bool
  stateFile : Option (Option TaskState) := none
  metaFile : Option (Option TaskMetadata) := none
deriving DecidableEq

/-- Snapshot of the whole task store: the directory listing (none when the
store directory is missing or unreadable) and the registry file lines (none
when the file is missing or unreadable; a none line is a blank or
unparseable line, which load_registry skips). -/
structure TaskStore where
  dirs : Option (List DirEntry)
  registry : Option (List (Option RegistryEntry))
deriving DecidableEq

/-- TaskState::from_metadata — build a minimal state from metadata.json. -/
def TaskState.fromMetadata (m : TaskMetadata) : TaskState :=
  { task_id := m.task_id
    description := m.description
    created_at := m.created_at
    worktree :=
      if m.branch_name ≠ "" ∨ m.worktree_path ≠ "" then
        some { branch := m.branch_name
               base_branch := m.base_branch
               path := m.worktree_path }
      else none }

/-! ### Registry (load_registry, src/data/task.rs lines 360-397)

The Rust code folds the parseable lines into a HashMap keyed by task_id, a
later line overwriting an earlier one with the same key.  We model the map as
an association list with overwrite-on-insert; lookups and the key multiset
are exactly those of the HashMap. -/

/-- Insert with overwrite into an association list keyed by task id. -/
def regInsert (k : String) (v : RegistryEntry) :
    List (String × RegistryEntry) → List (String × RegistryEntry)
  | [] => [(k, v)]
  | (k', v') :: rest =>
    if k' = k then (k, v) :: rest else (k', v') :: regInsert k v rest

/-- Lookup in the association list. -/
def regGet? (k : String) : List (String × RegistryEntry) → Option RegistryEntry
  | [] => none
  | (k', v) :: rest => if k' = k then some v else regGet? k rest

/-- load_registry: fold the parseable lines into the map; a missing or
unreadable file gives the empty map, and each blank or unparseable line is
skipped individually. -/
def load_registry (lines : Option (List (Option RegistryEntry))) :
    List (String × RegistryEntry) :=
  match lines with
  | none => []
  | some ls =>
    ls.foldl
      (fun m o =>
        match o with
        | none => m
        | some e => regInsert e.task_id e m)
      []

/-- Numeric suffixes of the registry keys, as load_tasks computes
max_from_registry: strip_prefix TASK_ then parse u32, unparseable keys
skipped. -/
def registryNums (reg : List (String × RegistryEntry)) : List Nat :=
  reg.filterMap (fun kv => registryKeyNum? kv.1)

/-! ### Disk scan (load_tasks step 1 and get_next_task_id) -/

/-- Numeric ids of the task-store subdirectories: non-directories are
skipped, then the directory name must match the anchored TASK_ digits regex
and parse as u32. -/
def diskNums (entries : List DirEntry) : List Nat :=
  (entries.filter (fun e => e.isDir)).filterMap (fun e => taskDirNum? e.name)

/-- On-disk record produced by one directory entry, if any: a live record
from a parsed state.json; if state.json is absent, an archived record from a
parsed metadata.json; otherwise nothing (an existing but unreadable or
unparseable state.json also yields nothing — the metadata fallback is only
tried when state.json does not exist). -/
def diskRecordOf? (tasksDir : String) (e : DirEntry) : Option LoadedTask :=
  if ¬ e.isDir then none
  else
    match e.stateFile with
    | some (some st) =>
      some { dir := joinPath tasksDir e.name, state := st, archived := false,
             jira_key := none }
    | some none => none
    | none =>
      match e.metaFile with
      | some (some m) =>
        some { dir := joinPath tasksDir e.name
               state := TaskState.fromMetadata m
               archived := true
               jira_key := if m.jira_key = "" then none else some m.jira_key }
      | _ => none

/-- The records loaded from disk, in directory-listing order. -/
def diskTasks (tasksDir : String) (entries : List DirEntry) : List LoadedTask :=
  entries.filterMap (diskRecordOf? tasksDir)

/-- get_next_task_id (src/worktree.rs lines 28-46): scan the task store
directory for TASK_ digit directories and return TASK_ max+1, zero-padded to
three digits.  A missing or unreadable directory leaves the maximum at 0.
Note that this function reads only the disk; it never opens the registry. -/
def get_next_task_id (dirs : Option (List DirEntry)) : String :=
  match dirs with
  | none => formatTaskId 1
  | some entries => formatTaskId ((diskNums entries).foldl max 0 + 1)

/-! ### Reconciliation (load_tasks, src/data/task.rs lines 403-518) -/

/-- The maximum task number observed on disk or among registry keys
(steps 2-3 of the reconciliation). -/
def maxObserved (s : TaskStore) : Nat :=
  match s.dirs with
  | none => 0
  | some entries =>
    max ((diskNums entries).foldl max 0)
      ((registryNums (load_registry s.registry)).foldl max 0)

/-- Archived placeholder for a task id with no on-disk record: hydrated from
the registry when the id has an entry (description, created_at, and a
worktree binding carrying the branch when it is non-empty), otherwise marked
with the fixed deleted sentinel. -/
def placeholderFor (tasksDir id : String) (reg : List (String × RegistryEntry)) :
    LoadedTask :=
  match regGet? id reg with
  | some r =>
    { dir := joinPath tasksDir id
      state := { task_id := id
                 description := r.description
                 created_at := r.created_at
                 worktree :=
                   if r.branch ≠ "" then some { branch := r.branch } else none }
      archived := true
      jira_key := none }
  | none =>
    { dir := joinPath tasksDir id
      state := { task_id := id, description := "(deleted)" }
      archived := true
      jira_key := none }

/-- Step 4: for every integer 1..max not covered by an on-disk record's
task_id, synthesize an archived placeholder. -/
def gapFill (tasksDir : String) (onDiskIds : List String)
    (reg : List (String × RegistryEntry)) (maxNum : Nat) : List LoadedTask :=
  (List.range maxNum).filterMap
    (fun k =>
      let id := formatTaskId (k + 1)
      if id ∈ onDiskIds then none else some (placeholderFor tasksDir id reg))

/-- Ordering used by the final sort: ascending by task_id under the Rust
String Ord (byte-lexicographic).  The Rust sort is stable; insertionSort is
stable too. -/
def taskLe (a b : LoadedTask) : Prop := strLeProp a.state.task_id b.state.task_id

instance : DecidableRel taskLe := fun a b => by
  unfold taskLe
  infer_instance

/-- load_tasks: load all on-disk records, load the registry, compute the
maximum observed number, fill the gaps with archived placeholders, and sort
everything by task_id.  Total by construction: every fallible read is an
Option in the snapshot and every failure branch degrades to skipping. -/
def load_tasks (tasksDir : String) (s : TaskStore) : List LoadedTask :=
  match s.dirs with
  | none => []
  | some entries =>
    let tasks := diskTasks tasksDir entries
    let reg := load_registry s.registry
    let maxNum := max ((diskNums entries).foldl max 0)
      ((registryNums reg).foldl max 0)
    let onDiskIds := tasks.map (fun t => t.state.task_id)
    List.insertionSort taskLe (tasks ++ gapFill tasksDir onDiskIds reg maxNum)

/-! ### Slug and branch naming (src/worktree.rs lines 49-71)

Rust to_lowercase applies full Unicode lowercasing.  Every uppercase letter
outside ASCII maps to a non-ASCII lowercase letter — which the following
character filter removes, exactly as the original uppercase character would
be removed — except U+0130 (maps to an ASCII i plus a combining dot, the dot
then filtered out) and U+212A (maps to ASCII k).  We therefore lower ASCII
letters in place, map those two exceptional code points to their ASCII
lowercase forms, and keep every other character unchanged. -/

/-- Rust char-to-lowercase at the granularity the slug pipeline observes. -/
def rustLowerChars (c : Char) : List Char :=
  if 65 ≤ c.toNat ∧ c.toNat ≤ 90 then [Char.ofNat (c.toNat + 32)]
  else if c.toNat = 304 then [Char.ofNat 105, Char.ofNat 775]
  else if c.toNat = 8490 then [Char.ofNat 107]
  else [c]

/-- Characters kept by the filter regex (the complement of the class
excluding lowercase ASCII letters, ASCII digits, whitespace, underscore and
dash is removed). -/
def isSlugKeepChar (c : Char) : Bool :=
  (97 ≤ c.toNat && c.toNat ≤ 122) || (48 ≤ c.toNat && c.toNat ≤ 57) ||
    isRustWhitespaceChar c || c = '_' || c = '-'

/-- Character class of the run-collapsing regex: whitespace or underscore. -/
def isSpaceUnderscore (c : Char) : Bool := isRustWhitespaceChar c || c = '_'

/-- replace_all of one-or-more repetitions of the class p by the single
character rep: each leftmost maximal run becomes one rep.  The boolean flag
records whether the previous character belonged to the current run. -/
def collapseRuns (p : Char → Bool) (rep : Char) : List Char → Bool → List Char
  | [], _ => []
  | c :: cs, inRun =>
    if p c then
      (if inRun then collapseRuns p rep cs true
       else rep :: collapseRuns p rep cs true)
    else c :: collapseRuns p rep cs false

/-- trim_matches of the dash character at both ends. -/
def trimDashes (l : List Char) : List Char :=
  ((l.dropWhile (fun c => c = '-')).reverse.dropWhile (fun c => c = '-')).reverse

/-- slugify: lowercase, drop characters outside the keep class, collapse
whitespace/underscore runs to single dashes, collapse dash runs, trim
dashes at both ends. -/
def slugify (s : String) : String :=
  let lowered := s.data.flatMap rustLowerChars
  let kept := lowered.filter isSlugKeepChar
  let dashed := collapseRuns isSpaceUnderscore '-' kept false
  let collapsed := collapseRuns (fun c => c = '-') '-' dashed false
  String.mk (trimDashes collapsed)

/-- generate_branch_name: slug, fixed fallback when empty, truncate to 50
(bytes in Rust; the slug is all ASCII, so characters coincide), trim a
trailing dash run, prefix crew/. -/
def generate_branch_name (description : String) : String :=
  let slug := slugify description
  if slug = "" then "crew/new-task"
  else
    let truncated := slug.data.take 50
    let trimmed := (truncated.reverse.dropWhile (fun c => c = '-')).reverse
    "crew/" ++ String.mk trimmed

/-! ### Worktree provisioner (src/worktree.rs lines 158-379)

The world is a snapshot of everything the provisioner observes: the VCS
marker kind, the outcome of each external git invocation, the task-store
listing, the canonicalization results, and the outcome of each filesystem
mutation (none = success, some e = failure with io error text e).  create
returns its Result together with the ordered list of mutations and external
commands it attempted; preview returns the same shape, and its effect list is
empty because the source performs no mutation (steps 1, 4 and 5 only). -/

/-- State of the .git marker under repo_root. -/
inductive GitMarker
  | dir
  | file
  | absent
deriving DecidableEq

/-- Outcome of the git worktree add invocation: the process could not be
spawned, or it ran and exited (success flag plus captured stderr). -/
inductive WtAddOutcome
  | spawnErr (msg : String)
  | ran (success : Bool) (stderr : String)
deriving DecidableEq

/-- Outcome of fetch_and_pull, with the failing command's message already
formatted by that helper. -/
inductive FetchPullOutcome
  | fetchFail (msg : String)
  | pullFail (msg : String)
  | ok
deriving DecidableEq

/-- Supported external AI hosts. -/
inductive AiHost
  | claude
  | copilot
  | gemini
  | openCode
deriving DecidableEq

/-- AiHost::label. -/
def AiHost.label : AiHost → String
  | .claude => "Claude Code"
  | .copilot => "GitHub Copilot"
  | .gemini => "Gemini CLI"
  | .openCode => "OpenCode"

/-- Color scheme entry of the fixed palette. -/
structure ColorSchemeHex where
  name : String
  tab : String
  bg : String
  fg : String
deriving DecidableEq

/-- The fixed palette COLOR_SCHEME_HEX (8 entries). -/
def COLOR_SCHEME_HEX : List ColorSchemeHex :=
  [ { name := "Crew Ocean", tab := "#1A6B8A", bg := "#0C1B2A", fg := "#C8D6E5" },
    { name := "Crew Forest", tab := "#2D7D46", bg := "#0E1F14", fg := "#C5D1C0" },
    { name := "Crew Sunset", tab := "#C75B39", bg := "#1F120E", fg := "#D8C8BA" },
    { name := "Crew Amethyst", tab := "#7B5EA7", bg := "#16121F", fg := "#CCC4D8" },
    { name := "Crew Steel", tab := "#5C7A8A", bg := "#141C22", fg := "#C0CCD4" },
    { name := "Crew Ember", tab := "#B85C3A", bg := "#1A110D", fg := "#D4C4B4" },
    { name := "Crew Frost", tab := "#4BA3C7", bg := "#0D1820", fg := "#C4D4E0" },
    { name := "Crew Earth", tab := "#8D7B4A", bg := "#1A170E", fg := "#D0C8B8" } ]

deriving instance DecidableEq for Except

/-- Snapshot world for preview and create_worktree. -/
structure RepoWorld where
  gitMarker : GitMarker
  currentBranch : Except String String
  fetchPull : FetchPullOutcome
  tasksDir : Option (List DirEntry)
  canonTasks : Option String
  mkdirTasks : Option String
  mkdirTaskDir : Option String
  writeStateFile : Option String
  mkdirWorktreeBase : Option String
  worktreeAdd : WtAddOutcome
  symlinkTasks : Option String
  canonWorktree : Option String
  repoPath : String
  repoName : Option String
  repoParent : Option String
  now : String
deriving DecidableEq

/-- Filesystem mutations and external commands attempted by the
provisioner, in program order.  The best-effort .crew-resume write carries
only its path; nothing in the program reads the file back. -/
inductive FsEffect
  | createDirAll (path : String)
  | writeStateJson (path : String) (content : TaskState)
  | appendRegistry (path taskId description branch : String)
  | gitFetch
  | gitPull (branch : String)
  | gitWorktreeAdd (branch path base : String)
  | removeDirAll (path : String)
  | symlink (target link : String)
  | writeResumeFile (path : String)
deriving DecidableEq

/-- Preview of what will be created. -/
structure WorktreePreview where
  task_id : String
  branch_name : String
  worktree_dir : String
  base_branch : String
  color_scheme_name : String
deriving DecidableEq

/-- Result of a successful worktree creation. -/
structure WorktreeResult where
  task_id : String
  branch_name : String
  worktree_abs : String
  base_branch : String
  color_scheme_index : Nat
deriving DecidableEq

/-- The path repo_root/.tasks. -/
def tasksDirPath (w : RepoWorld) : String := joinPath w.repoPath ".tasks"

/-- canonicalize().unwrap_or of the .tasks path. -/
def tasksCanonicalOf (w : RepoWorld) : String :=
  w.canonTasks.getD (tasksDirPath w)

/-- create_initial_state (src/worktree.rs lines 114-155), restricted to the
fields of our TaskState; the palette entry is indexed modulo the palette
size exactly as the source does. -/
def create_initial_state (taskId description branchName baseBranch
    worktreePath : String) (colorIdx : Nat) (aiHost : AiHost) (now : String) :
    TaskState :=
  let scheme := COLOR_SCHEME_HEX.getD (colorIdx % COLOR_SCHEME_HEX.length)
    { name := "", tab := "", bg := "", fg := "" }
  { task_id := taskId
    phase := some "architect"
    phases_completed := []
    iteration := 1
    description := description
    worktree := some
      { status := "active"
        path := worktreePath
        branch := branchName
        base_branch := baseBranch
        color_scheme_index := colorIdx
        created_at := now
        launch := some { ai_host := aiHost.label, color_scheme := scheme.name } }
    status := none
    created_at := now
    updated_at := now }

/-- The task number re-parsed from a generated id (strip_prefix then usize
parse, unwrap_or 0), used for the palette index. -/
def taskNumOfId (taskId : String) : Nat :=
  (match stripChars ("TASK_".data) taskId.data with
    | none => none
    | some rest => rustParseUsizeChars rest).getD 0

/-- preview (src/worktree.rs lines 158-198).  The second component is the
list of mutations performed: the source performs none. -/
def preview (w : RepoWorld) (description : String) :
    Except String WorktreePreview × List FsEffect :=
  match w.gitMarker with
  | .file => (.error "Already inside a worktree", [])
  | .absent => (.error "Not a git repository", [])
  | .dir =>
    let taskId := get_next_task_id w.tasksDir
    let branchName := generate_branch_name description
    let baseBranch :=
      match w.currentBranch with
      | .ok b => b
      | .error _ => "main"
    let repoName := w.repoName.getD "repo"
    let worktreeDir := "../" ++ repoName ++ "-worktrees/" ++ taskId
    let schemeIdx := taskNumOfId taskId % COLOR_SCHEME_HEX.length
    let scheme := COLOR_SCHEME_HEX.getD schemeIdx
      { name := "", tab := "", bg := "", fg := "" }
    (.ok { task_id := taskId
           branch_name := branchName
           worktree_dir := worktreeDir
           base_branch := baseBranch
           color_scheme_name := scheme.name }, [])

/-- fetch_and_pull (src/worktree.rs lines 87-111) together with the effects
of the two external commands it attempts. -/
def fetch_and_pull (w : RepoWorld) (branch : String) :
    Except String Unit × List FsEffect :=
  match w.fetchPull with
  | .fetchFail m => (.error ("git fetch failed: " ++ m), [.gitFetch])
  | .pullFail m => (.error ("git pull failed: " ++ m), [.gitFetch, .gitPull branch])
  | .ok => (.ok (), [.gitFetch, .gitPull branch])

/-- create_worktree (src/worktree.rs lines 203-379): the result and the
ordered list of mutations and external commands attempted.  A failing
filesystem operation is recorded as attempted and then aborts with its
formatted message; serde serialization of the fresh state document cannot
fail on this data and is modelled as pure. -/
def create_worktree (w : RepoWorld) (description : String) (aiHost : AiHost)
    (pull : Bool) : Except String WorktreeResult × List FsEffect :=
  match w.gitMarker with
  | .file => (.error "Already inside a worktree. Create from the main repo.", [])
  | .absent => (.error "Not a git repository", [])
  | .dir =>
    match w.currentBranch with
    | .error e => (.error e, [])
    | .ok baseBranch =>
      if baseBranch = "" then (.error "Could not detect current branch", [])
      else
        let pullStep : Except String Unit × List FsEffect :=
          if pull then fetch_and_pull w baseBranch else (.ok (), [])
        match pullStep with
        | (.error e, effs) => (.error e, effs)
        | (.ok _, effs0) =>
          let mkTasksEffs :=
            match w.tasksDir with
            | none => [FsEffect.createDirAll (tasksDirPath w)]
            | some _ => []
          let mkTasksFail :=
            match w.tasksDir with
            | none => w.mkdirTasks
            | some _ => none
          match mkTasksFail with
          | some e => (.error ("Failed to create .tasks/: " ++ e), effs0 ++ mkTasksEffs)
          | none =>
            let tasksCanonical := tasksCanonicalOf w
            let scanEntries :=
              match w.tasksDir with
              | none => some []
              | some es => some es
            let taskId := get_next_task_id scanEntries
            let branchName := generate_branch_name description
            let repoName := w.repoName.getD "repo"
            match w.repoParent with
            | none => (.error "Cannot determine parent directory", effs0 ++ mkTasksEffs)
            | some parent =>
              let worktreeBase := joinPath parent (repoName ++ "-worktrees")
              let worktreePath := joinPath worktreeBase taskId
              let colorIdx := taskNumOfId taskId % COLOR_SCHEME_HEX.length
              let taskDir := joinPath tasksCanonical taskId
              let effs1 := effs0 ++ mkTasksEffs ++ [FsEffect.createDirAll taskDir]
              match w.mkdirTaskDir with
              | some e => (.error ("Failed to create task directory: " ++ e), effs1)
              | none =>
                let worktreeRel := "../" ++ repoName ++ "-worktrees/" ++ taskId
                let st := create_initial_state taskId description branchName
                  baseBranch worktreeRel colorIdx aiHost w.now
                let effs2 := effs1 ++ [FsEffect.writeStateJson
                  (joinPath taskDir "state.json") st]
                match w.writeStateFile with
                | some e => (.error ("Failed to write state.json: " ++ e), effs2)
                | none =>
                  let effs3 := effs2 ++ [FsEffect.appendRegistry
                    (joinPath tasksCanonical ".registry.jsonl") taskId
                    description branchName]
                  let effs4 := effs3 ++ [FsEffect.createDirAll worktreeBase]
                  match w.mkdirWorktreeBase with
                  | some e =>
                    (.error ("Failed to create worktrees directory: " ++ e), effs4)
                  | none =>
                    let effs5 := effs4 ++ [FsEffect.gitWorktreeAdd branchName
                      worktreePath baseBranch]
                    match w.worktreeAdd with
                    | .spawnErr m =>
                      (.error ("git worktree add failed: " ++ m), effs5)
                    | .ran false stderr =>
                      (.error ("git worktree add failed: " ++ rustTrim stderr),
                        effs5 ++ [FsEffect.removeDirAll taskDir])
                    | .ran true _ =>
                      let effs6 := effs5 ++ [FsEffect.symlink tasksCanonical
                        (joinPath worktreePath ".tasks")]
                      match w.symlinkTasks with
                      | some e =>
                        (.error ("Failed to create .tasks symlink: " ++ e), effs6)
                      | none =>
                        let effs7 := effs6 ++ [FsEffect.writeResumeFile
                          (joinPath worktreePath ".crew-resume")]
                        let worktreeAbs := w.canonWorktree.getD worktreePath
                        (.ok { task_id := taskId
                               branch_name := branchName
                               worktree_abs := worktreeAbs
                               base_branch := baseBranch
                               color_scheme_index := colorIdx }, effs7)

/-! ### Cleanup executor (src/cleanup.rs lines 192-253) -/

/-- Result of a single cleanup execution. -/
structure CleanupResult where
  task_id : String
  success : Bool
  message : String
deriving DecidableEq

/-- Outcome of invoking the per-task cleanup script: the process could not
be spawned, or it ran and exited with a success flag and captured stdout and
stderr. -/
inductive ScriptOutcome
  | spawnErr (msg : String)
  | exited (success : Bool) (stdout stderr : String)
deriving DecidableEq

/-- Snapshot world for execute_cleanup: the repository path, whether the
cleanup script exists under repo_root/scripts, and the outcome of running a
given argument vector. -/
structure CleanupWorld where
  repoPath : String
  scriptExists : Bool
  run : List String → ScriptOutcome

/-- The resolved script path (absolute when present, the relative literal
otherwise). -/
def cleanupScriptPath (w : CleanupWorld) : String :=
  if w.scriptExists then joinPath (joinPath w.repoPath "scripts") "cleanup-worktree.py"
  else "scripts/cleanup-worktree.py"

/-- The argument vector built for one task id. -/
def cleanupArgs (w : CleanupWorld) (taskId : String)
    (removeBranch keepOnDisk : Bool) : List String :=
  ["python3", cleanupScriptPath w, taskId] ++
    (if keepOnDisk then ["--keep-on-disk"] else []) ++
    (if removeBranch then ["--remove-branch"] else [])

/-- Processing of one task id by execute_cleanup: exit 0 gives success with
trimmed stdout; a non-zero exit gives failure with trimmed stderr; a spawn
error gives failure with the io message. -/
def cleanupOne (w : CleanupWorld) (removeBranch keepOnDisk : Bool)
    (taskId : String) : CleanupResult :=
  match w.run (cleanupArgs w taskId removeBranch keepOnDisk) with
  | .spawnErr e =>
    { task_id := taskId, success := false,
      message := "Failed to run cleanup script: " ++ e }
  | .exited true stdout _ =>
    { task_id := taskId, success := true, message := rustTrim stdout }
  | .exited false _ stderr =>
    { task_id := taskId, success := false, message := "Failed: " ++ rustTrim stderr }

/-- execute_cleanup: each id of the batch is processed independently, in
order (the source maps the closure over the id slice; we write the map as
explicit recursion over the list). -/
def execute_cleanup (w : CleanupWorld) (taskIds : List String)
    (removeBranch keepOnDisk : Bool) : List CleanupResult :=
  match taskIds with
  | [] => []
  | id :: rest =>
    cleanupOne w removeBranch keepOnDisk id ::
      execute_cleanup w rest removeBranch keepOnDisk

/-! ### Background operation controller (src/app.rs lines 71-128, 844-866,
1315-1343)

A join handle is snapshotted at poll time: still running, or finished with
Option result (none = the worker thread panicked, so join returns an error).
The poll functions below are the two check_completion methods restricted to
the popup fields they read or write. -/

/-- Snapshot of a worker join handle at poll time. -/
inductive HandleState (α : Type)
  | running
  | done (result : Option α)
deriving DecidableEq

/-- Steps of the create-worktree popup flow. -/
inductive CreateStep
  | inputDescription
  | selectHost
  | toggleSettings
  | confirm
  | executing
  | done
deriving DecidableEq

/-- Steps of the cleanup popup flow. -/
inductive CleanupStep
  | selectWorktrees
  | settings
  | preview
  | executing
  | done
deriving DecidableEq

/-- Create-popup state, restricted to the fields the poll touches. -/
structure CreatePopupM where
  step : CreateStep
  handle : Option (HandleState (Except String WorktreeResult))
  result : Option (Except String WorktreeResult)
deriving DecidableEq

/-- Cleanup-popup state, restricted to the fields the poll touches. -/
structure CleanupPopupM where
  step : CleanupStep
  handle : Option (HandleState (List CleanupResult))
  results : Option (List CleanupResult)
  scroll : Nat
deriving DecidableEq

/-- create_popup_check_completion: nothing happens unless the popup is
Executing and holds a handle; a still-running handle is put back unchanged; a
finished handle's result is captured (a panicked worker synthesizes the
fixed error) and the step moves to Done. -/
def create_popup_check_completion (p : CreatePopupM) : CreatePopupM :=
  if p.step = CreateStep.executing then
    match p.handle with
    | none => p
    | some HandleState.running => p
    | some (HandleState.done r) =>
      { step := CreateStep.done
        handle := none
        result := some (r.getD (Except.error "Thread panicked")) }
  else p

/-- cleanup_popup_check_completion: as above; a panicked worker synthesizes
a single failure result, and the scroll position resets. -/
def cleanup_popup_check_completion (p : CleanupPopupM) : CleanupPopupM :=
  if p.step = CleanupStep.executing then
    match p.handle with
    | none => p
    | some HandleState.running => p
    | some (HandleState.done r) =>
      { step := CleanupStep.done
        handle := none
        results := some (r.getD
          [{ task_id := "?", success := false, message := "Thread panicked" }])
        scroll := 0 }
  else p

/-! ### Helper lemmas: decimal digits and the textual id -/

theorem charEq_of_toNat_eq {c d : Char} (h : c.toNat = d.toNat) : c = d := by
  apply Char.ext
  exact UInt32.toNat.inj h

theorem digitChar_toNat {d : Nat} (h : d ≤ 9) : (digitChar d).toNat = 48 + d := by
  unfold digitChar
  interval_cases d <;> rfl

theorem natDecChars_one {n : Nat} (h : n < 10) : natDecChars n = [digitChar n] := by
  unfold natDecChars
  rw [natDecCharsFuel]
  rw [if_pos h]

theorem natDecChars_two {n : Nat} (h1 : 10 ≤ n) (h2 : n < 100) :
    natDecChars n = [digitChar (n / 10), digitChar (n % 10)] := by
  obtain ⟨m, rfl⟩ : ∃ m, n = m + 1 := ⟨n - 1, by omega⟩
  unfold natDecChars
  rw [natDecCharsFuel]
  rw [if_neg (by omega)]
  rw [natDecCharsFuel]
  rw [if_pos (by omega)]

theorem natDecChars_three {n : Nat} (h1 : 100 ≤ n) (h2 : n < 1000) :
    natDecChars n =
      [digitChar (n / 100), digitChar (n / 10 % 10), digitChar (n % 10)] := by
  obtain ⟨m, rfl⟩ : ∃ m, n = m + 2 := ⟨n - 2, by omega⟩
  unfold natDecChars
  rw [natDecCharsFuel]
  rw [if_neg (by omega)]
  rw [natDecCharsFuel]
  rw [if_neg (by omega)]
  rw [natDecCharsFuel]
  rw [if_pos (by omega)]
  have hdd : (m + 2) / 10 / 10 = (m + 2) / 100 := by omega
  rw [hdd]

theorem pad3Chars_triple {n : Nat} (h : n ≤ 999) :
    pad3Chars n =
      [digitChar (n / 100), digitChar (n / 10 % 10), digitChar (n % 10)] := by
  by_cases h1 : n < 10
  · have hz : digitChar 0 = '0' := rfl
    have ha : n / 100 = 0 := by omega
    have hb : n / 10 % 10 = 0 := by omega
    have hc : n % 10 = n := by omega
    simp [pad3Chars, natDecChars_one h1, ha, hb, hc, hz, List.replicate]
  · by_cases h2 : n < 100
    · have hz : digitChar 0 = '0' := rfl
      have ha : n / 100 = 0 := by omega
      have hb : n / 10 % 10 = n / 10 := by omega
      simp [pad3Chars, natDecChars_two (by omega) h2, ha, hb, hz, List.replicate]
    · have h3 := natDecChars_three (show 100 ≤ n by omega) (show n < 1000 by omega)
      simp [pad3Chars, h3]

theorem stripChars_append (p cs : List Char) : stripChars p (p ++ cs) = some cs := by
  induction p with
  | nil => rfl
  | cons c ps ih => simp [stripChars, ih]

theorem digitVal?_digitChar {d : Nat} (h : d ≤ 9) :
    digitVal? (digitChar d) = some d := by
  unfold digitVal?
  rw [digitChar_toNat h]
  rw [if_pos (by omega)]
  congr 1
  omega

theorem decValue?_triple {x y z : Nat} (hx : x ≤ 9) (hy : y ≤ 9) (hz : z ≤ 9) :
    decValue? [digitChar x, digitChar y, digitChar z] =
      some (100 * x + 10 * y + z) := by
  simp [decValue?, decValueAux, digitVal?_digitChar hx, digitVal?_digitChar hy,
    digitVal?_digitChar hz]
  omega

theorem taskDirNum?_format {n : Nat} (h : n ≤ 999) :
    taskDirNum? (formatTaskId n) = some n := by
  have hmk : (String.mk (pad3Chars n)).data = pad3Chars n := rfl
  simp only [taskDirNum?, formatTaskId, String.data_append, hmk, stripChars_append]
  rw [pad3Chars_triple h]
  rw [decValue?_triple (by omega) (by omega) (by omega)]
  have hv : 100 * (n / 100) + 10 * (n / 10 % 10) + n % 10 = n := by omega
  rw [hv]
  show (if n < 4294967296 then some n else none) = some n
  rw [if_pos (by omega)]

theorem formatTaskId_inj {a b : Nat} (ha : a ≤ 999) (hb : b ≤ 999)
    (h : formatTaskId a = formatTaskId b) : a = b := by
  have := congrArg taskDirNum? h
  rw [taskDirNum?_format ha, taskDirNum?_format hb] at this
  exact Option.some.inj this

theorem charsLtB_append_same (p x y : List Char) :
    charsLtB (p ++ x) (p ++ y) = charsLtB x y := by
  induction p with
  | nil => rfl
  | cons c ps ih =>
    show charsLtB (c :: (ps ++ x)) (c :: (ps ++ y)) = charsLtB x y
    rw [charsLtB]
    simp [ih]

theorem strLtB_format_iff {a b : Nat} (ha : a ≤ 999) (hb : b ≤ 999) :
    strLtB (formatTaskId a) (formatTaskId b) = true ↔ a < b := by
  unfold strLtB formatTaskId
  rw [String.data_append]
  rw [String.data_append]
  have hma : (String.mk (pad3Chars a)).data = pad3Chars a := rfl
  have hmb : (String.mk (pad3Chars b)).data = pad3Chars b := rfl
  rw [hma, hmb, charsLtB_append_same]
  rw [pad3Chars_triple ha, pad3Chars_triple hb]
  rw [charsLtB]
  rw [digitChar_toNat (show a / 100 ≤ 9 by omega)]
  rw [digitChar_toNat (show b / 100 ≤ 9 by omega)]
  by_cases h1 : 48 + a / 100 < 48 + b / 100
  · rw [if_pos h1]
    exact iff_of_true rfl (by omega)
  · rw [if_neg h1]
    by_cases h2 : 48 + b / 100 < 48 + a / 100
    · rw [if_pos h2]
      exact iff_of_false Bool.false_ne_true (by omega)
    · rw [if_neg h2]
      rw [charsLtB]
      rw [digitChar_toNat (show a / 10 % 10 ≤ 9 by omega)]
      rw [digitChar_toNat (show b / 10 % 10 ≤ 9 by omega)]
      by_cases h3 : 48 + a / 10 % 10 < 48 + b / 10 % 10
      · rw [if_pos h3]
        exact iff_of_true rfl (by omega)
      · rw [if_neg h3]
        by_cases h4 : 48 + b / 10 % 10 < 48 + a / 10 % 10
        · rw [if_pos h4]
          exact iff_of_false Bool.false_ne_true (by omega)
        · rw [if_neg h4]
          rw [charsLtB]
          rw [digitChar_toNat (show a % 10 ≤ 9 by omega)]
          rw [digitChar_toNat (show b % 10 ≤ 9 by omega)]
          by_cases h5 : 48 + a % 10 < 48 + b % 10
          · rw [if_pos h5]
            exact iff_of_true rfl (by omega)
          · rw [if_neg h5]
            by_cases h6 : 48 + b % 10 < 48 + a % 10
            · rw [if_pos h6]
              exact iff_of_false Bool.false_ne_true (by omega)
            · rw [if_neg h6]
              rw [charsLtB]
              exact iff_of_false Bool.false_ne_true (by omega)

/-! ### Helper lemmas: the string order is a total order -/

theorem stringData_inj {a b : String} (h : a.data = b.data) : a = b := by
  cases a
  cases b
  exact congrArg String.mk h

theorem charsLtB_asymm (x : List Char) :
    ∀ y, charsLtB x y = true → charsLtB y x = false := by
  induction x with
  | nil =>
    intro y h
    cases y with
    | nil => simp [charsLtB] at h
    | cons c cs => rfl
  | cons a as ih =>
    intro y h
    cases y with
    | nil => simp [charsLtB] at h
    | cons b bs =>
      rw [charsLtB] at h ⊢
      by_cases h1 : a.toNat < b.toNat
      · rw [if_neg (by omega), if_pos (by omega)]
      · rw [if_neg h1] at h
        by_cases h2 : b.toNat < a.toNat
        · rw [if_pos h2] at h
          exact absurd h (by simp)
        · rw [if_neg h2] at h
          rw [if_neg h2, if_neg h1]
          exact ih bs h

theorem charsLtB_irrefl (l : List Char) : charsLtB l l = false := by
  cases h : charsLtB l l
  · rfl
  · have := charsLtB_asymm l l h
    rw [this] at h
    exact absurd h (by simp)

theorem charsLtB_conn (x : List Char) :
    ∀ y, charsLtB x y = false → charsLtB y x = false → x = y := by
  induction x with
  | nil =>
    intro y hxy _
    cases y with
    | nil => rfl
    | cons c cs => simp [charsLtB] at hxy
  | cons a as ih =>
    intro y hxy hyx
    cases y with
    | nil => simp [charsLtB] at hyx
    | cons b bs =>
      rw [charsLtB] at hxy hyx
      by_cases h1 : a.toNat < b.toNat
      · rw [if_pos h1] at hxy
        exact absurd hxy (by simp)
      · rw [if_neg h1] at hxy
        by_cases h2 : b.toNat < a.toNat
        · rw [if_pos h2] at hyx
          exact absurd hyx (by simp)
        · rw [if_neg h2] at hxy
          rw [if_neg (by omega)] at hyx
          rw [if_neg (by omega)] at hyx
          have hab : a = b := charEq_of_toNat_eq (by omega)
          rw [hab, ih bs hxy hyx]

theorem charsLtB_trans (x : List Char) :
    ∀ y z, charsLtB x y = true → charsLtB y z = true → charsLtB x z = true := by
  induction x with
  | nil =>
    intro y z hxy hyz
    cases z with
    | nil => cases y <;> simp [charsLtB] at hyz
    | cons c cs => rfl
  | cons a as ih =>
    intro y z hxy hyz
    cases y with
    | nil => simp [charsLtB] at hxy
    | cons b bs =>
      cases z with
      | nil => simp [charsLtB] at hyz
      | cons c cs =>
        rw [charsLtB] at hxy hyz ⊢
        by_cases h1 : a.toNat < b.toNat <;> by_cases h2 : b.toNat < c.toNat
        · rw [if_pos (by omega)]
        · rw [if_neg h2] at hyz
          by_cases h3 : c.toNat < b.toNat
          · rw [if_pos h3] at hyz
            exact absurd hyz (by simp)
          · rw [if_pos (by omega)]
        · rw [if_neg h1] at hxy
          by_cases h3 : b.toNat < a.toNat
          · rw [if_pos h3] at hxy
            exact absurd hxy (by simp)
          · rw [if_pos (by omega)]
        · rw [if_neg h1] at hxy
          rw [if_neg h2] at hyz
          by_cases h3 : b.toNat < a.toNat
          · rw [if_pos h3] at hxy
            exact absurd hxy (by simp)
          · rw [if_neg h3] at hxy
            by_cases h4 : c.toNat < b.toNat
            · rw [if_pos h4] at hyz
              exact absurd hyz (by simp)
            · rw [if_neg h4] at hyz
              rw [if_neg (by omega), if_neg (by omega)]
              exact ih bs cs hxy hyz

theorem charsLtB_tri (x y : List Char) :
    charsLtB x y = true ∨ charsLtB y x = true ∨ x = y := by
  cases hxy : charsLtB x y
  · cases hyx : charsLtB y x
    · exact Or.inr (Or.inr (charsLtB_conn x y hxy hyx))
    · exact Or.inr (Or.inl rfl)
  · exact Or.inl rfl

theorem strLeProp_total (a b : String) : strLeProp a b ∨ strLeProp b a := by
  unfold strLeProp strLeB strLtB
  cases h : charsLtB b.data a.data
  · exact Or.inl (by simp)
  · have := charsLtB_asymm b.data a.data h
    exact Or.inr (by simp [this])

theorem strLeProp_trans {a b c : String} (hab : strLeProp a b)
    (hbc : strLeProp b c) : strLeProp a c := by
  unfold strLeProp strLeB strLtB at hab hbc ⊢
  simp only [Bool.not_eq_true'] at hab hbc ⊢
  cases hca : charsLtB c.data a.data
  · rfl
  · rcases charsLtB_tri c.data b.data with h | h | h
    · rw [h] at hbc
      exact absurd hbc (by simp)
    · have := charsLtB_trans b.data c.data a.data h hca
      rw [this] at hab
      exact absurd hab (by simp)
    · rw [h] at hca
      rw [hca] at hab
      exact hab

theorem strLeProp_antisymm {a b : String} (hab : strLeProp a b)
    (hba : strLeProp b a) : a = b := by
  unfold strLeProp strLeB strLtB at hab hba
  simp only [Bool.not_eq_true'] at hab hba
  exact stringData_inj (charsLtB_conn a.data b.data hba hab)

instance : IsTotal String strLeProp := ⟨strLeProp_total⟩

instance : IsTrans String strLeProp := ⟨fun _ _ _ => strLeProp_trans⟩

instance : IsAntisymm String strLeProp := ⟨fun _ _ => strLeProp_antisymm⟩

theorem strLtB_strLeProp {a b : String} (h : strLtB a b = true) : strLeProp a b := by
  unfold strLeProp strLeB
  unfold strLtB at h ⊢
  simp [charsLtB_asymm a.data b.data h]

theorem strLtB_ne {a b : String} (h : strLtB a b = true) : a ≠ b := by
  intro he
  subst he
  unfold strLtB at h
  rw [charsLtB_irrefl] at h
  exact absurd h (by simp)

/-! ### Helper lemmas: foldl max -/

theorem foldl_max_init (l : List Nat) : ∀ a, a ≤ l.foldl max a := by
  induction l with
  | nil => intro a; exact le_refl a
  | cons x xs ih =>
    intro a
    have h1 : a ≤ max a x := le_max_left a x
    exact le_trans h1 (ih (max a x))

theorem mem_le_foldl_max (l : List Nat) : ∀ a, ∀ n ∈ l, n ≤ l.foldl max a := by
  induction l with
  | nil => intro a n hn; simp at hn
  | cons x xs ih =>
    intro a n hn
    rcases List.mem_cons.mp hn with h | h
    · subst h
      exact le_trans (le_max_right a n) (foldl_max_init xs (max a n))
    · exact ih (max a x) n h

theorem foldl_max_le (l : List Nat) :
    ∀ a b, (∀ n ∈ l, n ≤ b) → a ≤ b → l.foldl max a ≤ b := by
  induction l with
  | nil => intro a b _ ha; exact ha
  | cons x xs ih =>
    intro a b h ha
    exact ih (max a x) b (fun n hn => h n (List.mem_cons_of_mem x hn))
      (max_le ha (h x (List.mem_cons_self x xs)))

/-! ### Helper lemmas: sorting commutes with projections -/

theorem map_orderedInsert {α β : Type} (f : α → β) (r : α → α → Prop)
    (r' : β → β → Prop) [DecidableRel r] [DecidableRel r']
    (hf : ∀ x y, r x y ↔ r' (f x) (f y)) (a : α) (l : List α) :
    (List.orderedInsert r a l).map f = List.orderedInsert r' (f a) (l.map f) := by
  induction l with
  | nil => rfl
  | cons b bs ih =>
    by_cases h : r a b
    · simp only [List.orderedInsert, if_pos h, if_pos ((hf a b).mp h),
        List.map_cons]
    · simp only [List.orderedInsert, if_neg h,
        if_neg (fun hc => h ((hf a b).mpr hc)), List.map_cons, ih]

theorem map_insertionSort {α β : Type} (f : α → β) (r : α → α → Prop)
    (r' : β → β → Prop) [DecidableRel r] [DecidableRel r']
    (hf : ∀ x y, r x y ↔ r' (f x) (f y)) (l : List α) :
    (List.insertionSort r l).map f = List.insertionSort r' (l.map f) := by
  induction l with
  | nil => rfl
  | cons a l ih =>
    show (List.orderedInsert r a (List.insertionSort r l)).map f = _
    rw [map_orderedInsert f r r' hf, ih]
    rfl

/-! ### Helper lemmas: permutations of duplicate-free lists -/

theorem perm_of_nodup_of_mem_iff {α : Type} [DecidableEq α] {l1 l2 : List α}
    (h1 : l1.Nodup) (h2 : l2.Nodup) (h : ∀ a, a ∈ l1 ↔ a ∈ l2) :
    l1.Perm l2 := by
  rw [List.perm_iff_count]
  intro a
  rw [List.count_eq_of_nodup h1, List.count_eq_of_nodup h2]
  by_cases hm : a ∈ l1
  · rw [if_pos hm, if_pos ((h a).mp hm)]
  · rw [if_neg hm, if_neg (fun hc => hm ((h a).mpr hc))]

/-! ### Helper lemmas: the reconciliation pipeline -/

theorem diskRecordOf?_isDir {d : String} {e : DirEntry} {t : LoadedTask}
    (h : diskRecordOf? d e = some t) : e.isDir = true := by
  cases he : e.isDir
  · unfold diskRecordOf? at h
    rw [he] at h
    simp at h
  · rfl

/-- Decidable canonical-naming check for one directory entry: whenever the
entry yields a record, the directory name is the canonical zero-padded form
of a number in [1, 999] and the record's task_id equals the directory name. -/
def canonicalEntry (d : String) (e : DirEntry) : Bool :=
  match diskRecordOf? d e with
  | none => true
  | some t =>
    match taskDirNum? e.name with
    | none => false
    | some n =>
      decide (1 ≤ n) && decide (n ≤ 999) && decide (e.name = formatTaskId n) &&
        decide (t.state.task_id = e.name)

theorem canonicalEntry_spec {d : String} {e : DirEntry} {t : LoadedTask}
    (hc : canonicalEntry d e = true) (h : diskRecordOf? d e = some t) :
    ∃ n, 1 ≤ n ∧ n ≤ 999 ∧ taskDirNum? e.name = some n ∧
      e.name = formatTaskId n ∧ t.state.task_id = e.name := by
  unfold canonicalEntry at hc
  rw [h] at hc
  cases hn : taskDirNum? e.name with
  | none =>
    rw [hn] at hc
    exact absurd hc (by simp)
  | some n =>
    rw [hn] at hc
    simp only [Bool.and_eq_true, decide_eq_true_eq] at hc
    exact ⟨n, hc.1.1.1, hc.1.1.2, rfl, hc.1.2, hc.2⟩

theorem placeholderFor_taskId (d id : String)
    (reg : List (String × RegistryEntry)) :
    (placeholderFor d id reg).state.task_id = id := by
  unfold placeholderFor
  cases h : regGet? id reg with
  | none => simp [h]
  | some r => simp [h]

theorem gapFill_aux_map (d : String) (ids : List String)
    (reg : List (String × RegistryEntry)) :
    ∀ l : List Nat,
      (l.filterMap (fun k =>
        let id := formatTaskId (k + 1)
        if id ∈ ids then none else some (placeholderFor d id reg))).map
          (fun t => t.state.task_id) =
        (l.map (fun k => formatTaskId (k + 1))).filter
          (fun id => decide (id ∉ ids)) := by
  intro l
  induction l with
  | nil => rfl
  | cons k ks ih =>
    by_cases h : formatTaskId (k + 1) ∈ ids
    · simp [List.filterMap_cons, h, ih]
    · simp [List.filterMap_cons, h, ih, placeholderFor_taskId]

theorem gapFill_map (d : String) (ids : List String)
    (reg : List (String × RegistryEntry)) (m : Nat) :
    (gapFill d ids reg m).map (fun t => t.state.task_id) =
      ((List.range m).map (fun k => formatTaskId (k + 1))).filter
        (fun id => decide (id ∉ ids)) := by
  unfold gapFill
  exact gapFill_aux_map d ids reg (List.range m)

theorem placeholder_mem_gapFill {d : String} {ids : List String}
    {reg : List (String × RegistryEntry)} {m n : Nat} (h1 : 1 ≤ n) (h2 : n ≤ m)
    (h3 : formatTaskId n ∉ ids) :
    placeholderFor d (formatTaskId n) reg ∈ gapFill d ids reg m := by
  unfold gapFill
  apply List.mem_filterMap.mpr
  refine ⟨n - 1, List.mem_range.mpr (by omega), ?_⟩
  have hn : n - 1 + 1 = n := by omega
  rw [hn]
  simp [h3]

theorem pairwise_strLt_range_format {m : Nat} (hm : m ≤ 999) :
    List.Pairwise (fun x y => strLtB x y = true)
      ((List.range m).map (fun k => formatTaskId (k + 1))) := by
  rw [List.pairwise_map]
  have hp := List.Pairwise.and_mem.mp (List.pairwise_lt_range m)
  apply List.Pairwise.imp ?_ hp
  intro a b hab
  obtain ⟨ha, hb, h⟩ := hab
  have ha' := List.mem_range.mp ha
  have hb' := List.mem_range.mp hb
  exact (strLtB_format_iff (by omega) (by omega)).mpr (by omega)

theorem sorted_range_format {m : Nat} (hm : m ≤ 999) :
    List.Sorted strLeProp ((List.range m).map (fun k => formatTaskId (k + 1))) := by
  apply List.Pairwise.imp ?_ (pairwise_strLt_range_format hm)
  intro a b h
  exact strLtB_strLeProp h

theorem nodup_range_format {m : Nat} (hm : m ≤ 999) :
    ((List.range m).map (fun k => formatTaskId (k + 1))).Nodup := by
  apply List.Pairwise.imp ?_ (pairwise_strLt_range_format hm)
  intro a b h
  exact strLtB_ne h

theorem diskTasks_ids_sublist (d : String) (entries : List DirEntry)
    (hrec : ∀ e ∈ entries, ∀ t, diskRecordOf? d e = some t →
      t.state.task_id = e.name) :
    ((diskTasks d entries).map (fun t => t.state.task_id)).Sublist
      (entries.map (fun e => e.name)) := by
  induction entries with
  | nil => simp [diskTasks]
  | cons e es ih =>
    have ih' := ih (fun e' he' t ht => hrec e' (List.mem_cons_of_mem e he') t ht)
    cases h : diskRecordOf? d e with
    | none =>
      simp only [diskTasks, List.filterMap_cons, h, List.map_cons]
      exact List.Sublist.cons e.name ih'
    | some t =>
      have hn : t.state.task_id = e.name := hrec e (List.mem_cons_self e es) t h
      simp only [diskTasks, List.filterMap_cons, h, List.map_cons, hn]
      exact List.Sublist.cons₂ e.name ih'

/-- Claim C1 (amended).  For a readable task store whose record-bearing
directory entries are canonically named (name TASK_ zero-padded n with n in
[1, 999], record task_id equal to the name), with duplicate-free directory
names and every numeric id observed on disk or in the registry at most 999,
the reconciled list's task ids are exactly TASK_001 .. TASK_max in ascending
order: every integer in [1, max_observed] is represented by exactly one
record, and the list is ascending in the numeric id. -/
theorem taskLe_iff (x y : LoadedTask) :
    taskLe x y ↔ strLeProp x.state.task_id y.state.task_id := Iff.rfl

theorem crew_c1_theorem (tasksDir : String) (s : TaskStore)
    (entries : List DirEntry)
    (hdirs : s.dirs = some entries)
    (hcanon : ∀ e ∈ entries, canonicalEntry tasksDir e = true)
    (hnames : (entries.map (fun e => e.name)).Nodup)
    (hdisk : ∀ n ∈ diskNums entries, n ≤ 999)
    (hreg : ∀ n ∈ registryNums (load_registry s.registry), n ≤ 999) :
    (load_tasks tasksDir s).map (fun t => t.state.task_id) =
      (List.range (maxObserved s)).map (fun k => formatTaskId (k + 1)) ∧
    (∀ n, 1 ≤ n → n ≤ maxObserved s →
      ((load_tasks tasksDir s).map (fun t => t.state.task_id)).count
        (formatTaskId n) = 1) ∧
    List.Pairwise
      (fun a b => (taskDirNum? a.state.task_id).getD 0 <
        (taskDirNum? b.state.task_id).getD 0) (load_tasks tasksDir s) := by
  have hrec_name : ∀ e ∈ entries, ∀ t, diskRecordOf? tasksDir e = some t →
      t.state.task_id = e.name := by
    intro e he t ht
    obtain ⟨n, _, _, _, _, h5⟩ := canonicalEntry_spec (hcanon e he) ht
    exact h5
  have hM_eq : maxObserved s = max ((diskNums entries).foldl max 0)
      ((registryNums (load_registry s.registry)).foldl max 0) := by
    unfold maxObserved
    rw [hdirs]
  have hload : load_tasks tasksDir s = List.insertionSort taskLe
      (diskTasks tasksDir entries ++ gapFill tasksDir
        ((diskTasks tasksDir entries).map (fun t => t.state.task_id))
        (load_registry s.registry) (maxObserved s)) := by
    unfold load_tasks
    rw [hdirs, hM_eq]
  have hDmax : (diskNums entries).foldl max 0 ≤ 999 :=
    foldl_max_le _ 0 999 hdisk (by omega)
  have hRmax : (registryNums (load_registry s.registry)).foldl max 0 ≤ 999 :=
    foldl_max_le _ 0 999 hreg (by omega)
  have hM999 : maxObserved s ≤ 999 := by
    rw [hM_eq]
    exact max_le hDmax hRmax
  have hids_mem : ∀ x ∈ (diskTasks tasksDir entries).map
      (fun t => t.state.task_id),
      ∃ n, 1 ≤ n ∧ n ≤ 999 ∧ x = formatTaskId n ∧ n ∈ diskNums entries := by
    intro x hx
    obtain ⟨t, ht, rfl⟩ := List.mem_map.mp hx
    obtain ⟨e, he, hrec⟩ := List.mem_filterMap.mp ht
    obtain ⟨n, h1, h2, h3, h4, h5⟩ := canonicalEntry_spec (hcanon e he) hrec
    refine ⟨n, h1, h2, by rw [h5, h4], ?_⟩
    unfold diskNums
    apply List.mem_filterMap.mpr
    exact ⟨e, List.mem_filter.mpr ⟨he, diskRecordOf?_isDir hrec⟩, h3⟩
  have hids_nodup : ((diskTasks tasksDir entries).map
      (fun t => t.state.task_id)).Nodup :=
    List.Nodup.sublist (diskTasks_ids_sublist tasksDir entries hrec_name) hnames
  have hids_subT : ∀ x ∈ (diskTasks tasksDir entries).map
      (fun t => t.state.task_id),
      x ∈ (List.range (maxObserved s)).map (fun k => formatTaskId (k + 1)) := by
    intro x hx
    obtain ⟨n, h1, h2, rfl, h4⟩ := hids_mem x hx
    apply List.mem_map.mpr
    have hle : n ≤ (diskNums entries).foldl max 0 := mem_le_foldl_max _ 0 n h4
    have hmax : (diskNums entries).foldl max 0 ≤ maxObserved s := by
      rw [hM_eq]
      exact le_max_left _ _
    refine ⟨n - 1, List.mem_range.mpr (by omega), by congr 1; omega⟩
  have hT_nodup := nodup_range_format (m := maxObserved s) hM999
  have hT_sorted := sorted_range_format (m := maxObserved s) hM999
  have hperm1 : ((diskTasks tasksDir entries).map
      (fun t => t.state.task_id)).Perm
      (((List.range (maxObserved s)).map (fun k => formatTaskId (k + 1))).filter
        (fun id => decide (id ∈ (diskTasks tasksDir entries).map
          (fun t => t.state.task_id)))) := by
    apply perm_of_nodup_of_mem_iff hids_nodup (hT_nodup.filter _)
    intro a
    constructor
    · intro ha
      exact List.mem_filter.mpr ⟨hids_subT a ha, by simp [ha]⟩
    · intro ha
      have h2 := (List.mem_filter.mp ha).2
      simpa using h2
  have hfuneq : (fun id => decide (id ∉ (diskTasks tasksDir entries).map
        (fun t => t.state.task_id))) =
      (fun x => ! decide (x ∈ (diskTasks tasksDir entries).map
        (fun t => t.state.task_id))) := by
    funext x
    simp only [decide_not]
  have hperm : (((diskTasks tasksDir entries).map (fun t => t.state.task_id)) ++
      ((List.range (maxObserved s)).map (fun k => formatTaskId (k + 1))).filter
        (fun id => decide (id ∉ (diskTasks tasksDir entries).map
          (fun t => t.state.task_id)))).Perm
      ((List.range (maxObserved s)).map (fun k => formatTaskId (k + 1))) := by
    rw [hfuneq]
    refine List.Perm.trans (List.Perm.append_right _ hperm1) ?_
    exact List.filter_append_perm _ _
  have hpre : (diskTasks tasksDir entries ++ gapFill tasksDir
      ((diskTasks tasksDir entries).map (fun t => t.state.task_id))
      (load_registry s.registry) (maxObserved s)).map
        (fun t => t.state.task_id) =
      ((diskTasks tasksDir entries).map (fun t => t.state.task_id)) ++
      ((List.range (maxObserved s)).map (fun k => formatTaskId (k + 1))).filter
        (fun id => decide (id ∉ (diskTasks tasksDir entries).map
          (fun t => t.state.task_id))) := by
    rw [List.map_append, gapFill_map]
  have hmapsort : (load_tasks tasksDir s).map (fun t => t.state.task_id) =
      List.insertionSort strLeProp
        (((diskTasks tasksDir entries).map (fun t => t.state.task_id)) ++
        ((List.range (maxObserved s)).map (fun k => formatTaskId (k + 1))).filter
          (fun id => decide (id ∉ (diskTasks tasksDir entries).map
            (fun t => t.state.task_id)))) := by
    rw [hload]
    rw [map_insertionSort (fun t => t.state.task_id) taskLe strLeProp
      (fun x y => taskLe_iff x y)]
    rw [hpre]
  have hmain : (load_tasks tasksDir s).map (fun t => t.state.task_id) =
      (List.range (maxObserved s)).map (fun k => formatTaskId (k + 1)) := by
    rw [hmapsort]
    exact List.eq_of_perm_of_sorted
      (List.Perm.trans (List.perm_insertionSort strLeProp _) hperm)
      (List.sorted_insertionSort strLeProp _) hT_sorted
  refine ⟨hmain, ?_, ?_⟩
  · intro n hn1 hn2
    rw [hmain]
    apply List.count_eq_one_of_mem hT_nodup
    apply List.mem_map.mpr
    exact ⟨n - 1, List.mem_range.mpr (by omega), by congr 1; omega⟩
  · have hnums : List.Pairwise
        (fun x y : String => (taskDirNum? x).getD 0 < (taskDirNum? y).getD 0)
        ((List.range (maxObserved s)).map (fun k => formatTaskId (k + 1))) := by
      rw [List.pairwise_map]
      have hp := List.Pairwise.and_mem.mp (List.pairwise_lt_range (maxObserved s))
      apply List.Pairwise.imp ?_ hp
      intro a b hab
      obtain ⟨ha, hb, h⟩ := hab
      have ha' := List.mem_range.mp ha
      have hb' := List.mem_range.mp hb
      rw [taskDirNum?_format (by omega), taskDirNum?_format (by omega)]
      simp only [Option.getD_some]
      omega
    rw [← hmain] at hnums
    exact (@List.pairwise_map LoadedTask String (fun t => t.state.task_id)
      (fun x y => (taskDirNum? x).getD 0 < (taskDirNum? y).getD 0)
      (load_tasks tasksDir s)).mp hnums

/-- Task store with a single live task whose directory name TASK_1 is not
zero-padded.  The reconciliation keeps the live record and also synthesizes a
TASK_001 placeholder for the same integer. -/
def crewC1State : TaskState := { task_id := "TASK_1" }

/-- The single directory entry of the store above. -/
def crewC1Entry : DirEntry :=
  { name := "TASK_1", isDir := true, stateFile := some (some crewC1State),
    metaFile := none }

def crewC1Store : TaskStore :=
  { dirs := some [crewC1Entry], registry := some [] }

/-- Claim C1, counterexample to the claim as stated: for the store with one
live directory TASK_1, max_observed is 1 but the integer 1 is represented by
two records (the live TASK_1 and the synthesized placeholder TASK_001), so
"every integer in [1, max_observed] is represented by exactly one TaskRecord"
fails. -/
theorem crew_c1_counterexample :
    maxObserved crewC1Store = 1 ∧
    ((load_tasks "/repo/.tasks" crewC1Store).filter
      (fun t => taskDirNum? t.state.task_id == some 1)).length = 2 ∧
    (load_tasks "/repo/.tasks" crewC1Store).map (fun t => t.state.task_id) =
      ["TASK_001", "TASK_1"] := by decide

/-- Scenario A entries: TASK_001 complete on disk, TASK_003 incomplete on
disk; the registry has entries for 001, 002 and 003. -/
def scenarioAState1 : TaskState :=
  { task_id := "TASK_001"
    phases_completed := ["architect", "developer", "reviewer", "implementer",
      "technical_writer"]
    description := "first task" }

/-- Scenario A: the incomplete state of TASK_003. -/
def scenarioAState3 : TaskState :=
  { task_id := "TASK_003", phase := some "developer",
    description := "third task" }

def scenarioAEntries : List DirEntry :=
  [ { name := "TASK_001", isDir := true, stateFile := some (some scenarioAState1),
      metaFile := none },
    { name := "TASK_003", isDir := true, stateFile := some (some scenarioAState3),
      metaFile := none } ]

/-- Scenario A task store. -/
def scenarioARegistry : List (Option RegistryEntry) :=
  [ some ⟨"TASK_001", "first task", "crew/first", "t1"⟩,
    some ⟨"TASK_002", "second task", "crew/second", "t2"⟩,
    some ⟨"TASK_003", "third task", "crew/third", "t3"⟩ ]

/-- Scenario A task store. -/
def scenarioAStore : TaskStore :=
  { dirs := some scenarioAEntries, registry := some scenarioARegistry }

/-- Claim C1, witness: the amended theorem applied to the Scenario A store
produces exactly the ids TASK_001, TASK_002, TASK_003 in order. -/
theorem crew_c1_witness :
    (load_tasks "/repo/.tasks" scenarioAStore).map (fun t => t.state.task_id) =
      (List.range (maxObserved scenarioAStore)).map
        (fun k => formatTaskId (k + 1)) :=
  ( crew_c1_theorem "/repo/.tasks" scenarioAStore scenarioAEntries rfl
    (by decide) (by decide) (by decide) (by decide)).1

/-- Claim C2, counterexample to the claim as stated: with an empty disk and
a registry entry TASK_005, get_next_task_id returns TASK_001 — the allocator
reads only the disk scan, so the returned number 1 is neither
max(disk, registry) + 1 = 6 nor greater than the registry suffix 5. -/
theorem crew_c2_counterexample :
    get_next_task_id (some []) = "TASK_001" ∧
    5 ∈ registryNums (load_registry (some [some ⟨"TASK_005", "", "", ""⟩])) ∧
    taskDirNum? (get_next_task_id (some [])) = some 1 ∧
    ¬ (5 < 1) ∧
    get_next_task_id (some []) ≠ formatTaskId (max 0 5 + 1) := by decide

/-- Claim C2 (amended): get_next_task_id returns TASK_ plus the zero-padded
form of disk_max + 1, and the returned number is strictly greater than every
numeric suffix observed on disk; the Registry Log is not consulted. -/
theorem crew_c2_theorem (entries : List DirEntry) (n : Nat)
    (h : n ∈ diskNums entries) :
    get_next_task_id (some entries) =
      formatTaskId ((diskNums entries).foldl max 0 + 1) ∧
    n < (diskNums entries).foldl max 0 + 1 := by
  refine ⟨rfl, ?_⟩
  have := mem_le_foldl_max (diskNums entries) 0 n h
  omega

/-- Directory listing with a single task directory TASK_003. -/
def crewC2Entries : List DirEntry :=
  [{ name := "TASK_003", isDir := true, stateFile := none, metaFile := none }]

/-- Claim C2, witness: on a store containing TASK_003 the allocator answers
TASK_004 and 3 is strictly below the allocated number. -/
theorem crew_c2_witness :
    get_next_task_id (some crewC2Entries) =
      formatTaskId ((diskNums crewC2Entries).foldl max 0 + 1) ∧
    3 < (diskNums crewC2Entries).foldl max 0 + 1 :=
  crew_c2_theorem crewC2Entries 3 (by decide)

/-! ### Helper lemmas: the slug pipeline -/

theorem string_mk_length (l : List Char) : (String.mk l).length = l.length := rfl

theorem length_dropWhile_le {α : Type} (p : α → Bool) (l : List α) :
    (l.dropWhile p).length ≤ l.length := by
  induction l with
  | nil => simp
  | cons a l ih =>
    rw [List.dropWhile_cons]
    by_cases h : p a = true
    · rw [if_pos h]
      simp only [List.length_cons]
      omega
    · rw [if_neg h]

theorem head?_dropWhile_false {α : Type} (p : α → Bool) (l : List α) :
    ∀ a, (l.dropWhile p).head? = some a → p a = false := by
  induction l with
  | nil => intro a h; simp at h
  | cons c cs ih =>
    intro a h
    rw [List.dropWhile_cons] at h
    by_cases hc : p c = true
    · rw [if_pos hc] at h
      exact ih a h
    · rw [if_neg hc] at h
      simp only [List.head?_cons, Option.some.injEq] at h
      subst h
      revert hc
      cases p c <;> simp

theorem collapseRuns_mem {p : Char → Bool} {rep : Char} :
    ∀ (l : List Char) (b : Bool) (x : Char), x ∈ collapseRuns p rep l b →
      x = rep ∨ (p x = false ∧ x ∈ l) := by
  intro l
  induction l with
  | nil => intro b x hx; simp [collapseRuns] at hx
  | cons c cs ih =>
    intro b x hx
    rw [collapseRuns] at hx
    by_cases hc : p c = true
    · rw [if_pos hc] at hx
      cases b with
      | true =>
        rw [if_pos rfl] at hx
        rcases ih true x hx with h | h
        · exact Or.inl h
        · exact Or.inr ⟨h.1, List.mem_cons_of_mem c h.2⟩
      | false =>
        rw [if_neg (by simp)] at hx
        rcases List.mem_cons.mp hx with h | h
        · exact Or.inl h
        · rcases ih true x h with h2 | h2
          · exact Or.inl h2
          · exact Or.inr ⟨h2.1, List.mem_cons_of_mem c h2.2⟩
    · rw [if_neg hc] at hx
      rcases List.mem_cons.mp hx with h | h
      · refine Or.inr ⟨?_, ?_⟩
        · rw [h]
          revert hc
          cases p c <;> simp
        · rw [h]
          exact List.mem_cons_self c cs
      · rcases ih false x h with h2 | h2
        · exact Or.inl h2
        · exact Or.inr ⟨h2.1, List.mem_cons_of_mem c h2.2⟩

theorem trimDashes_all_dash {l : List Char} (h : ∀ x ∈ l, x = '-') :
    trimDashes l = [] := by
  unfold trimDashes
  have h1 : List.dropWhile (fun c => decide (c = '-')) l = [] :=
    List.dropWhile_eq_nil_iff.mpr (fun x hx => by simp [h x hx])
  rw [h1]
  rfl

/-- An ASCII lowercase letter or digit — the characters that survive the
slug filter and are not collapsed into dashes. -/
def isAsciiAlnum (c : Char) : Bool :=
  (97 ≤ c.toNat && c.toNat ≤ 122) || (48 ≤ c.toNat && c.toNat ≤ 57)

/-- A character none of whose lowercase expansion characters is an ASCII
letter or digit — the formal reading of a punctuation-only description. -/
def producesNoAlnum (c : Char) : Bool :=
  (rustLowerChars c).all (fun x => ! isAsciiAlnum x)

theorem slugify_eq_empty {d : String}
    (hd : ∀ c ∈ d.data, producesNoAlnum c = true) : slugify d = "" := by
  have hkept : ∀ x ∈ (d.data.flatMap rustLowerChars).filter isSlugKeepChar,
      isSpaceUnderscore x = true ∨ x = '-' := by
    intro x hx
    have h1 := (List.mem_filter.mp hx).2
    have h2 := (List.mem_filter.mp hx).1
    obtain ⟨c, hc, hcx⟩ := List.mem_flatMap.mp h2
    have h4 : isAsciiAlnum x = false := by
      have h5 := List.all_eq_true.mp (hd c hc) x hcx
      revert h5
      cases isAsciiAlnum x <;> simp
    unfold isSlugKeepChar at h1
    unfold isAsciiAlnum at h4
    unfold isSpaceUnderscore
    simp only [Bool.or_eq_true, Bool.or_eq_false_iff, Bool.and_eq_false_iff,
      decide_eq_true_eq, decide_eq_false_iff_not, Bool.and_eq_true] at h1 h4 ⊢
    tauto
  have hdashed : ∀ x ∈ collapseRuns isSpaceUnderscore '-'
      ((d.data.flatMap rustLowerChars).filter isSlugKeepChar) false,
      x = '-' := by
    intro x hx
    rcases collapseRuns_mem _ false x hx with h | h
    · exact h
    · rcases hkept x h.2 with h2 | h2
      · rw [h2] at h
        exact absurd h.1 (by simp)
      · exact h2
  have hcollapsed : ∀ x ∈ collapseRuns (fun c => decide (c = '-')) '-'
      (collapseRuns isSpaceUnderscore '-'
        ((d.data.flatMap rustLowerChars).filter isSlugKeepChar) false) false,
      x = '-' := by
    intro x hx
    rcases collapseRuns_mem _ false x hx with h | h
    · exact h
    · exact hdashed x h.2
  have hs : slugify d = String.mk (trimDashes
      (collapseRuns (fun c => decide (c = '-')) '-'
        (collapseRuns isSpaceUnderscore '-'
          ((d.data.flatMap rustLowerChars).filter isSlugKeepChar) false)
        false)) := rfl
  rw [hs, trimDashes_all_dash hcollapsed]

theorem gbn_cases (d : String) :
    generate_branch_name d = "crew/new-task" ∨
    generate_branch_name d = "crew/" ++ String.mk
      ((((slugify d).data.take 50).reverse.dropWhile
        (fun c => decide (c = '-'))).reverse) := by
  unfold generate_branch_name
  by_cases hs : slugify d = ""
  · rw [if_pos hs]
    exact Or.inl rfl
  · rw [if_neg hs]
    exact Or.inr rfl

theorem crew_append_length (X : List Char) :
    ("crew/" ++ String.mk X).length = 5 + X.length := by
  show ("crew/".data ++ X).length = 5 + X.length
  rw [List.length_append]
  rfl

/-- Claim C4.  generate_branch_name is a pure total function of the
description (it is a Lean function of the description snapshot alone); for
every input the output length is at most 5 + 50, the output never ends in a
dash, the empty description gives exactly the fixed fallback, and any
description no character of which lowercases to an ASCII letter or digit (a
punctuation-only input) gives exactly the fixed fallback. -/
theorem crew_c4_theorem (d : String) :
    (generate_branch_name d).length ≤ 55 ∧
    (generate_branch_name d).data.getLast? ≠ some '-' ∧
    generate_branch_name "" = "crew/new-task" ∧
    ((∀ c ∈ d.data, producesNoAlnum c = true) →
      generate_branch_name d = "crew/new-task") := by
  refine ⟨?_, ?_, by decide, ?_⟩
  · rcases gbn_cases d with h | h
    · rw [h]
      decide
    · rw [h, crew_append_length]
      have h1 : ((((slugify d).data.take 50).reverse.dropWhile
          (fun c => decide (c = '-'))).reverse).length ≤ 50 := by
        rw [List.length_reverse]
        have h2 := length_dropWhile_le (fun c => decide (c = '-'))
          ((slugify d).data.take 50).reverse
        have h3 : (((slugify d).data.take 50).reverse).length ≤ 50 := by
          rw [List.length_reverse]
          rw [List.length_take]
          omega
        omega
      omega
  · by_cases hs : slugify d = ""
    · unfold generate_branch_name
      rw [if_pos hs]
      decide
    · unfold generate_branch_name
      rw [if_neg hs]
      have hdata : (("crew/" ++ String.mk ((((slugify d).data.take 50).reverse.dropWhile
          (fun c => decide (c = '-'))).reverse)).data) =
          ("crew/".data ++ (((slugify d).data.take 50).reverse.dropWhile
            (fun c => decide (c = '-'))).reverse) := by
        rw [String.data_append]
      rw [hdata]
      rw [List.getLast?_append]
      rw [List.getLast?_reverse]
      cases hh : (((slugify d).data.take 50).reverse.dropWhile
          (fun c => decide (c = '-'))).head? with
      | none =>
        simp only [Option.or]
        decide
      | some a =>
        have := head?_dropWhile_false (fun c => decide (c = '-'))
          ((slugify d).data.take 50).reverse a hh
        simp only [Option.or, ne_eq, Option.some.injEq]
        intro hcontra
        rw [hcontra] at this
        simp at this
  · intro hd
    unfold generate_branch_name
    rw [if_pos (slugify_eq_empty hd)]

/-- Claim C4, witness: a punctuation-only description falls back to the
fixed branch name. -/
theorem crew_c4_witness : generate_branch_name "!!!" = "crew/new-task" :=
  ( crew_c4_theorem "!!!").2.2.2 (by decide)

/-! ### Helper lemmas: placeholders -/

theorem placeholderFor_archived (d id : String)
    (reg : List (String × RegistryEntry)) :
    (placeholderFor d id reg).archived = true := by
  unfold placeholderFor
  cases h : regGet? id reg <;> simp [h]

theorem placeholderFor_hydrated {d id : String}
    {reg : List (String × RegistryEntry)} {r : RegistryEntry}
    (h : regGet? id reg = some r) :
    (placeholderFor d id reg).state.description = r.description ∧
    (placeholderFor d id reg).state.created_at = r.created_at ∧
    (placeholderFor d id reg).state.worktree =
      (if r.branch ≠ "" then some { branch := r.branch } else none) := by
  unfold placeholderFor
  rw [h]
  exact ⟨rfl, rfl, rfl⟩

theorem placeholderFor_deleted {d id : String}
    {reg : List (String × RegistryEntry)} (h : regGet? id reg = none) :
    (placeholderFor d id reg).state.description = "(deleted)" := by
  unfold placeholderFor
  rw [h]

/-- Claim C5 (amended).  For every integer in [1, max_observed] with no
on-disk record at all (neither a state.json record nor a metadata.json
fallback record), load_tasks contains the synthesized placeholder: archived,
carrying the id, with description/created_at (and the branch, wrapped in a
worktree binding when non-empty) hydrated from the Registry Log if the id
has an entry, and the fixed deleted sentinel otherwise. -/
theorem crew_c5_theorem (tasksDir : String) (s : TaskStore)
    (entries : List DirEntry) (n : Nat)
    (hdirs : s.dirs = some entries)
    (h1 : 1 ≤ n) (h2 : n ≤ maxObserved s)
    (h3 : formatTaskId n ∉ (diskTasks tasksDir entries).map
      (fun t => t.state.task_id)) :
    placeholderFor tasksDir (formatTaskId n) (load_registry s.registry) ∈
      load_tasks tasksDir s ∧
    (placeholderFor tasksDir (formatTaskId n)
      (load_registry s.registry)).archived = true ∧
    (placeholderFor tasksDir (formatTaskId n)
      (load_registry s.registry)).state.task_id = formatTaskId n ∧
    (∀ r, regGet? (formatTaskId n) (load_registry s.registry) = some r →
      (placeholderFor tasksDir (formatTaskId n)
        (load_registry s.registry)).state.description = r.description ∧
      (placeholderFor tasksDir (formatTaskId n)
        (load_registry s.registry)).state.created_at = r.created_at ∧
      (placeholderFor tasksDir (formatTaskId n)
        (load_registry s.registry)).state.worktree =
        (if r.branch ≠ "" then some { branch := r.branch } else none)) ∧
    (regGet? (formatTaskId n) (load_registry s.registry) = none →
      (placeholderFor tasksDir (formatTaskId n)
        (load_registry s.registry)).state.description = "(deleted)") := by
  have hM_eq : maxObserved s = max ((diskNums entries).foldl max 0)
      ((registryNums (load_registry s.registry)).foldl max 0) := by
    unfold maxObserved
    rw [hdirs]
  have hload : load_tasks tasksDir s = List.insertionSort taskLe
      (diskTasks tasksDir entries ++ gapFill tasksDir
        ((diskTasks tasksDir entries).map (fun t => t.state.task_id))
        (load_registry s.registry) (maxObserved s)) := by
    unfold load_tasks
    rw [hdirs, hM_eq]
  refine ⟨?_, placeholderFor_archived _ _ _, placeholderFor_taskId _ _ _,
    fun r hr => placeholderFor_hydrated hr, fun hr => placeholderFor_deleted hr⟩
  rw [hload]
  apply (List.Perm.mem_iff (List.perm_insertionSort taskLe _)).mpr
  apply List.mem_append_right
  exact placeholder_mem_gapFill h1 h2 h3

/-- Metadata-only record whose description differs from the registry
entry's. -/
def crewC5Meta : TaskMetadata :=
  { task_id := "TASK_001", description := "from metadata" }

/-- Store for the C5 counterexample: TASK_001 exists on disk only as a
metadata.json fallback, while the registry also has an entry for it. -/
def crewC5Entry : DirEntry :=
  { name := "TASK_001", isDir := true, stateFile := none,
    metaFile := some (some crewC5Meta) }

/-- Store for the C5 counterexample, assembled from the entry above. -/
def crewC5Store : TaskStore :=
  { dirs := some [crewC5Entry],
    registry := some [some ⟨"TASK_001", "from registry", "", ""⟩] }

/-- Claim C5, counterexample to the claim as stated: integer 1 has no live
record (the only record is archived), the registry has an entry for
TASK_001, yet the reconciled record's description comes from metadata.json,
not from the registry, and no registry-hydrated placeholder exists. -/
theorem crew_c5_counterexample :
    (load_tasks "/repo/.tasks" crewC5Store).map
      (fun t => (t.state.task_id, t.archived, t.state.description)) =
      [("TASK_001", true, "from metadata")] ∧
    regGet? "TASK_001" (load_registry crewC5Store.registry) =
      some ⟨"TASK_001", "from registry", "", ""⟩ ∧
    ((load_tasks "/repo/.tasks" crewC5Store).filter
      (fun t => ! t.archived)).length = 0 := by decide

/-- Claim C5, witness: in the Scenario A store the placeholder for TASK_002
is present in the reconciled list. -/
theorem crew_c5_witness :
    placeholderFor "/repo/.tasks" (formatTaskId 2)
      (load_registry scenarioAStore.registry) ∈
      load_tasks "/repo/.tasks" scenarioAStore :=
  ( crew_c5_theorem "/repo/.tasks" scenarioAStore scenarioAEntries 2 rfl
    (by decide) (by decide) (by decide)).1

/-! ### Sanitization: malformed input behaves as absent input (claim C6) -/

/-- Replace malformed file snapshots by absent ones: an unparseable
state.json entry degrades to a bare directory (the Rust code skips the
metadata fallback in that case, so the metadata is dropped too), and an
unparseable metadata.json degrades to an absent one. -/
def sanitizeEntry (e : DirEntry) : DirEntry :=
  if e.stateFile = some none then
    { e with stateFile := none, metaFile := none }
  else
    { e with metaFile := if e.metaFile = some none then none else e.metaFile }

/-- Drop every malformed piece of the store snapshot: malformed per-task
files and unparseable registry lines. -/
def sanitizeStore (s : TaskStore) : TaskStore :=
  { dirs := s.dirs.map (fun es => es.map sanitizeEntry)
    registry := s.registry.map (fun ls => ls.filter (fun o => o.isSome)) }

theorem sanitizeEntry_name (e : DirEntry) : (sanitizeEntry e).name = e.name := by
  unfold sanitizeEntry
  by_cases h : e.stateFile = some none
  · rw [if_pos h]
  · rw [if_neg h]

theorem sanitizeEntry_isDir (e : DirEntry) :
    (sanitizeEntry e).isDir = e.isDir := by
  unfold sanitizeEntry
  by_cases h : e.stateFile = some none
  · rw [if_pos h]
  · rw [if_neg h]

theorem sanitizeEntry_record (d : String) (e : DirEntry) :
    diskRecordOf? d (sanitizeEntry e) = diskRecordOf? d e := by
  rcases e with ⟨name, isDir, st, mt⟩
  cases isDir <;> rcases st with _ | (_ | stv) <;> rcases mt with _ | (_ | md) <;>
    rfl

theorem sanitize_diskTasks (d : String) (es : List DirEntry) :
    diskTasks d (es.map sanitizeEntry) = diskTasks d es := by
  unfold diskTasks
  induction es with
  | nil => rfl
  | cons e es ih =>
    simp only [List.map_cons, List.filterMap_cons, sanitizeEntry_record, ih]

theorem sanitize_diskNums (es : List DirEntry) :
    diskNums (es.map sanitizeEntry) = diskNums es := by
  unfold diskNums
  induction es with
  | nil => rfl
  | cons e es ih =>
    simp only [List.map_cons, List.filter_cons, sanitizeEntry_isDir]
    by_cases h : e.isDir = true
    · rw [if_pos h, if_pos h]
      simp only [List.filterMap_cons, sanitizeEntry_name, ih]
    · rw [if_neg h, if_neg h]
      exact ih

theorem foldl_filter_isSome (l : List (Option RegistryEntry)) :
    ∀ acc : List (String × RegistryEntry),
      (l.filter (fun o => o.isSome)).foldl
        (fun m o => match o with
          | none => m
          | some e => regInsert e.task_id e m) acc =
      l.foldl
        (fun m o => match o with
          | none => m
          | some e => regInsert e.task_id e m) acc := by
  induction l with
  | nil => intro acc; rfl
  | cons o os ih =>
    intro acc
    cases o with
    | none => simp [List.filter_cons, ih]
    | some e => simp [List.filter_cons, ih]

theorem sanitize_registry (reg : Option (List (Option RegistryEntry))) :
    load_registry (reg.map (fun ls => ls.filter (fun o => o.isSome))) =
      load_registry reg := by
  cases reg with
  | none => rfl
  | some ls =>
    unfold load_registry
    exact foldl_filter_isSome ls []

/-- Claim C6.  The reconciliation load is total by construction (it is a
Lean function of the snapshot) and degrades malformed input to missing
input: a store in which every unparseable state.json, metadata.json or
registry line is replaced by an absent one loads identically, and a store
whose directory cannot be read at all loads to the empty list rather than
an error. -/
theorem crew_c6_theorem (tasksDir : String) (s : TaskStore) :
    load_tasks tasksDir s = load_tasks tasksDir (sanitizeStore s) ∧
    load_tasks tasksDir { dirs := none, registry := s.registry } = [] := by
  constructor
  · cases hd : s.dirs with
    | none =>
      unfold load_tasks sanitizeStore
      rw [hd]
      rfl
    | some es =>
      unfold load_tasks sanitizeStore
      rw [hd]
      simp only [Option.map_some']
      rw [sanitize_diskTasks, sanitize_diskNums, sanitize_registry]
  · rfl

/-! ### Helper lemmas: the provisioner -/

/-- The task id create_worktree allocates: the scan sees an empty listing
when the directory had to be created first. -/
def createIdOf (w : RepoWorld) : String :=
  get_next_task_id
    (match w.tasksDir with
      | none => some []
      | some es => some es)

theorem c3_path (parent repoName taskId : String) :
    ∃ rel, (("../" ++ repoName) ++ "-worktrees/") ++ taskId = "../" ++ rel ∧
      joinPath (joinPath parent (repoName ++ "-worktrees")) taskId =
        joinPath parent rel := by
  refine ⟨repoName ++ "-worktrees" ++ "/" ++ taskId, ?_, ?_⟩
  · apply stringData_inj
    have hws : ("-worktrees/" : String).data =
        ("-worktrees" : String).data ++ ("/" : String).data := by decide
    simp [String.data_append, hws]
  · apply stringData_inj
    simp [String.data_append, joinPath]

/-- Claim C3.  Whenever preview and create_worktree both succeed on the same
snapshot, they agree on the task id, the branch name and the base branch;
the preview's worktree directory is the relative form (under the repo
parent) of the exact path create passes to the external worktree command;
and preview performs no mutation (its effect list is empty). -/
theorem crew_c3_theorem (w : RepoWorld) (description : String) (aiHost : AiHost)
    (pull : Bool) (p : WorktreePreview) (r : WorktreeResult)
    (hp : (preview w description).1 = Except.ok p)
    (hc : (create_worktree w description aiHost pull).1 = Except.ok r) :
    r.task_id = p.task_id ∧ r.branch_name = p.branch_name ∧
    r.base_branch = p.base_branch ∧
    (∃ parent rel, w.repoParent = some parent ∧
      p.worktree_dir = "../" ++ rel ∧
      FsEffect.gitWorktreeAdd p.branch_name (joinPath parent rel) p.base_branch ∈
        (create_worktree w description aiHost pull).2) ∧
    (preview w description).2 = [] := by
  cases hm : w.gitMarker with
  | file => simp [create_worktree, hm] at hc
  | absent => simp [create_worktree, hm] at hc
  | dir =>
    cases hcb : w.currentBranch with
    | error e => simp [create_worktree, hm, hcb] at hc
    | ok b =>
      by_cases hb : b = ""
      · simp [create_worktree, hm, hcb, hb] at hc
      · rcases hps : (if pull then fetch_and_pull w b else (Except.ok (), []))
          with ⟨pres, peffs⟩
        cases pres with
        | error e => simp [create_worktree, hm, hcb, hb, hps] at hc
        | ok u =>
          cases hrp : w.repoParent with
          | none =>
            cases htd : w.tasksDir with
            | none =>
              cases hmt : w.mkdirTasks with
              | some e => simp [create_worktree, hm, hcb, hb, hps, htd, hmt] at hc
              | none => simp [create_worktree, hm, hcb, hb, hps, htd, hmt, hrp] at hc
            | some es => simp [create_worktree, hm, hcb, hb, hps, htd, hrp] at hc
          | some parent =>
            cases hmtd : w.mkdirTaskDir with
            | some e =>
              cases htd : w.tasksDir with
              | none =>
                cases hmt : w.mkdirTasks with
                | some e2 =>
                  simp [create_worktree, hm, hcb, hb, hps, htd, hmt] at hc
                | none =>
                  simp [create_worktree, hm, hcb, hb, hps, htd, hmt, hrp, hmtd] at hc
              | some es =>
                simp [create_worktree, hm, hcb, hb, hps, htd, hrp, hmtd] at hc
            | none =>
              cases hws : w.writeStateFile with
              | some e =>
                cases htd : w.tasksDir with
                | none =>
                  cases hmt : w.mkdirTasks with
                  | some e2 =>
                    simp [create_worktree, hm, hcb, hb, hps, htd, hmt] at hc
                  | none =>
                    simp [create_worktree, hm, hcb, hb, hps, htd, hmt, hrp, hmtd,
                      hws] at hc
                | some es =>
                  simp [create_worktree, hm, hcb, hb, hps, htd, hrp, hmtd, hws] at hc
              | none =>
                cases hmwb : w.mkdirWorktreeBase with
                | some e =>
                  cases htd : w.tasksDir with
                  | none =>
                    cases hmt : w.mkdirTasks with
                    | some e2 =>
                      simp [create_worktree, hm, hcb, hb, hps, htd, hmt] at hc
                    | none =>
                      simp [create_worktree, hm, hcb, hb, hps, htd, hmt, hrp, hmtd,
                        hws, hmwb] at hc
                  | some es =>
                    simp [create_worktree, hm, hcb, hb, hps, htd, hrp, hmtd, hws,
                      hmwb] at hc
                | none =>
                  cases hwa : w.worktreeAdd with
                  | spawnErr m =>
                    cases htd : w.tasksDir with
                    | none =>
                      cases hmt : w.mkdirTasks with
                      | some e2 =>
                        simp [create_worktree, hm, hcb, hb, hps, htd, hmt] at hc
                      | none =>
                        simp [create_worktree, hm, hcb, hb, hps, htd, hmt, hrp,
                          hmtd, hws, hmwb, hwa] at hc
                    | some es =>
                      simp [create_worktree, hm, hcb, hb, hps, htd, hrp, hmtd, hws,
                        hmwb, hwa] at hc
                  | ran success stderr =>
                    cases success with
                    | false =>
                      cases htd : w.tasksDir with
                      | none =>
                        cases hmt : w.mkdirTasks with
                        | some e2 =>
                          simp [create_worktree, hm, hcb, hb, hps, htd, hmt] at hc
                        | none =>
                          simp [create_worktree, hm, hcb, hb, hps, htd, hmt, hrp,
                            hmtd, hws, hmwb, hwa] at hc
                      | some es =>
                        simp [create_worktree, hm, hcb, hb, hps, htd, hrp, hmtd,
                          hws, hmwb, hwa] at hc
                    | true =>
                      cases hsl : w.symlinkTasks with
                      | some e =>
                        cases htd : w.tasksDir with
                        | none =>
                          cases hmt : w.mkdirTasks with
                          | some e2 =>
                            simp [create_worktree, hm, hcb, hb, hps, htd, hmt] at hc
                          | none =>
                            simp [create_worktree, hm, hcb, hb, hps, htd, hmt, hrp,
                              hmtd, hws, hmwb, hwa, hsl] at hc
                        | some es =>
                          simp [create_worktree, hm, hcb, hb, hps, htd, hrp, hmtd,
                            hws, hmwb, hwa, hsl] at hc
                      | none =>
                        cases htd : w.tasksDir with
                        | none =>
                          cases hmt : w.mkdirTasks with
                          | some e2 =>
                            simp [create_worktree, hm, hcb, hb, hps, htd, hmt] at hc
                          | none =>
                            obtain ⟨rel, hrel1, hrel2⟩ := c3_path parent
                              (w.repoName.getD "repo")
                              (get_next_task_id (some []))
                            simp only [preview, hm, hcb, htd] at hp
                            simp only [create_worktree, hm, hcb, if_neg hb,
                              hps, htd, hmt, hrp, hmtd, hws, hmwb, hwa, hsl] at hc
                            simp only [Except.ok.injEq] at hp hc
                            subst hp
                            subst hc
                            refine ⟨rfl, rfl, rfl, ⟨parent, rel, rfl, ?_, ?_⟩, by
                              simp [preview, hm]⟩
                            · simpa [get_next_task_id, diskNums] using hrel1
                            · simp only [create_worktree, hm, hcb, if_neg hb,
                                hps, htd, hmt, hrp, hmtd, hws, hmwb, hwa, hsl]
                              rw [← hrel2]
                              simp
                        | some es =>
                          obtain ⟨rel, hrel1, hrel2⟩ := c3_path parent
                            (w.repoName.getD "repo")
                            (get_next_task_id (some es))
                          simp only [preview, hm, hcb, htd] at hp
                          simp only [create_worktree, hm, hcb, if_neg hb,
                            hps, htd, hrp, hmtd, hws, hmwb, hwa, hsl] at hc
                          simp only [Except.ok.injEq] at hp hc
                          subst hp
                          subst hc
                          refine ⟨rfl, rfl, rfl, ⟨parent, rel, rfl, ?_, ?_⟩, by
                            simp [preview, hm]⟩
                          · exact hrel1
                          · simp only [create_worktree, hm, hcb, if_neg hb,
                              hps, htd, hrp, hmtd, hws, hmwb, hwa, hsl]
                            rw [← hrel2]
                            simp

/-- Happy-path snapshot on which both preview and create succeed. -/
def crewC3World : RepoWorld :=
  { gitMarker := GitMarker.dir
    currentBranch := Except.ok "main"
    fetchPull := FetchPullOutcome.ok
    tasksDir := some []
    canonTasks := none
    mkdirTasks := none
    mkdirTaskDir := none
    writeStateFile := none
    mkdirWorktreeBase := none
    worktreeAdd := WtAddOutcome.ran true ""
    symlinkTasks := none
    canonWorktree := none
    repoPath := "/home/dev/repo"
    repoName := some "repo"
    repoParent := some "/home/dev"
    now := "2026-01-01T00:00:00Z" }

/-- The preview computed on the happy-path snapshot. -/
def crewC3Preview : WorktreePreview :=
  { task_id := "TASK_001", branch_name := "crew/fix-login",
    worktree_dir := "../repo-worktrees/TASK_001", base_branch := "main",
    color_scheme_name := "Crew Forest" }

/-- The creation result computed on the happy-path snapshot. -/
def crewC3Result : WorktreeResult :=
  { task_id := "TASK_001", branch_name := "crew/fix-login",
    worktree_abs := "/home/dev/repo-worktrees/TASK_001", base_branch := "main",
    color_scheme_index := 1 }

/-- Claim C3, witness: on the happy-path snapshot the created task id equals
the previewed one. -/
theorem crew_c3_witness : crewC3Result.task_id = crewC3Preview.task_id :=
  (crew_c3_theorem crewC3World "Fix Login" AiHost.claude false crewC3Preview
    crewC3Result (by decide) (by decide)).1

/-- Claim C7.  create_worktree rejects its precondition violations before
any mutation: a file .git marker gives the already-inside-a-worktree error
and an absent marker gives the not-a-git-repository error, in both cases
with an empty effect trace (nothing created or modified). -/
theorem crew_c7_theorem (w : RepoWorld) (description : String) (aiHost : AiHost)
    (pull : Bool) :
    (w.gitMarker = GitMarker.file →
      create_worktree w description aiHost pull =
        (Except.error "Already inside a worktree. Create from the main repo.",
          [])) ∧
    (w.gitMarker = GitMarker.absent →
      create_worktree w description aiHost pull =
        (Except.error "Not a git repository", [])) := by
  constructor
  · intro h
    unfold create_worktree
    rw [h]
  · intro h
    unfold create_worktree
    rw [h]

/-- Snapshot whose .git marker is a file (a worktree). -/
def crewC7World : RepoWorld :=
  { crewC3World with gitMarker := GitMarker.file }

/-- Claim C7, witness: on the worktree-marker snapshot, create rejects with
the fixed message and an empty effect trace. -/
theorem crew_c7_witness :
    create_worktree crewC7World "d" AiHost.claude false =
      (Except.error "Already inside a worktree. Create from the main repo.",
        []) :=
  (crew_c7_theorem crewC7World "d" AiHost.claude false).1 rfl

/-- Claim C8.  When every step before the external worktree command succeeds
and that command runs but exits unsuccessfully, create_worktree returns the
error carrying the command's trimmed stderr; its effect trace contains the
removal of the just-created task subdirectory and the registry append, and
the task subdirectory is the only thing removed — in particular the registry
append is not rolled back. -/
theorem crew_c8_theorem (w : RepoWorld) (description : String) (aiHost : AiHost)
    (pull : Bool) (b stderr parent : String)
    (hm : w.gitMarker = GitMarker.dir)
    (hcb : w.currentBranch = Except.ok b)
    (hb : b ≠ "")
    (hpl : pull = true → w.fetchPull = FetchPullOutcome.ok)
    (hmt : w.tasksDir = none → w.mkdirTasks = none)
    (hrp : w.repoParent = some parent)
    (hmtd : w.mkdirTaskDir = none)
    (hws : w.writeStateFile = none)
    (hmwb : w.mkdirWorktreeBase = none)
    (hwa : w.worktreeAdd = WtAddOutcome.ran false stderr) :
    (create_worktree w description aiHost pull).1 =
      Except.error ("git worktree add failed: " ++ rustTrim stderr) ∧
    FsEffect.removeDirAll (joinPath (tasksCanonicalOf w) (createIdOf w)) ∈
      (create_worktree w description aiHost pull).2 ∧
    FsEffect.appendRegistry (joinPath (tasksCanonicalOf w) ".registry.jsonl")
      (createIdOf w) description (generate_branch_name description) ∈
      (create_worktree w description aiHost pull).2 ∧
    (∀ q, FsEffect.removeDirAll q ∈
        (create_worktree w description aiHost pull).2 →
      q = joinPath (tasksCanonicalOf w) (createIdOf w)) := by
  cases hpu : pull with
  | true =>
    have hfp := hpl hpu
    cases htd : w.tasksDir with
    | none =>
      have hmt' := hmt htd
      simp only [create_worktree, hm, hcb, if_neg hb, fetch_and_pull, hfp, htd,
        hpu, hmt', hrp, hmtd, hws, hmwb, hwa, createIdOf]
      refine ⟨rfl, by simp, by simp, ?_⟩
      intro q hq
      simp at hq
      exact hq
    | some es =>
      simp only [create_worktree, hm, hcb, if_neg hb, fetch_and_pull, hfp, htd,
        hpu, hrp, hmtd, hws, hmwb, hwa, createIdOf]
      refine ⟨rfl, by simp, by simp, ?_⟩
      intro q hq
      simp at hq
      exact hq
  | false =>
    cases htd : w.tasksDir with
    | none =>
      have hmt' := hmt htd
      simp only [create_worktree, hm, hcb, if_neg hb, htd, hpu, hmt', hrp, hmtd,
        hws, hmwb, hwa, createIdOf]
      refine ⟨rfl, by simp, by simp, ?_⟩
      intro q hq
      simp at hq
      exact hq
    | some es =>
      simp only [create_worktree, hm, hcb, if_neg hb, htd, hpu, hrp, hmtd, hws,
        hmwb, hwa, createIdOf]
      refine ⟨rfl, by simp, by simp, ?_⟩
      intro q hq
      simp at hq
      exact hq

/-- Snapshot on which the external worktree command exits unsuccessfully. -/
def crewC8World : RepoWorld :=
  { crewC3World with worktreeAdd := WtAddOutcome.ran false " boom \n" }

/-- Claim C8, witness: on the failing snapshot, create surfaces the trimmed
stderr in its error. -/
theorem crew_c8_witness :
    (create_worktree crewC8World "d" AiHost.claude false).1 =
      Except.error ("git worktree add failed: " ++ rustTrim " boom \n") :=
  (crew_c8_theorem crewC8World "d" AiHost.claude false "main" " boom \n"
    "/home/dev" rfl rfl (by decide) (fun _ => rfl) (fun _ => rfl)
    rfl rfl rfl rfl rfl).1

/-- Claim C9.  execute_cleanup returns exactly one tagged result per input
id, equal to the pointwise map of the per-id processing function (so one
id's outcome never alters another's); the batch distributes over list
concatenation (a failing prefix never suppresses the suffix); and per id the
result is success with trimmed captured stdout exactly when the script exits
zero, and failure with trimmed captured stderr when it exits non-zero. -/
theorem crew_c9_theorem (w : CleanupWorld) (removeBranch keepOnDisk : Bool)
    (ids : List String) :
    (execute_cleanup w ids removeBranch keepOnDisk).length = ids.length ∧
    execute_cleanup w ids removeBranch keepOnDisk =
      ids.map (cleanupOne w removeBranch keepOnDisk) ∧
    (∀ xs ys, execute_cleanup w (xs ++ ys) removeBranch keepOnDisk =
      execute_cleanup w xs removeBranch keepOnDisk ++
      execute_cleanup w ys removeBranch keepOnDisk) ∧
    (∀ id out err, w.run (cleanupArgs w id removeBranch keepOnDisk) =
        ScriptOutcome.exited true out err →
      cleanupOne w removeBranch keepOnDisk id =
        { task_id := id, success := true, message := rustTrim out }) ∧
    (∀ id out err, w.run (cleanupArgs w id removeBranch keepOnDisk) =
        ScriptOutcome.exited false out err →
      cleanupOne w removeBranch keepOnDisk id =
        { task_id := id, success := false,
          message := "Failed: " ++ rustTrim err }) := by
  refine ⟨?_, ?_, ?_, ?_, ?_⟩
  · induction ids with
    | nil => rfl
    | cons i is ih => simp [execute_cleanup, ih]
  · induction ids with
    | nil => rfl
    | cons i is ih => simp [execute_cleanup, ih]
  · intro xs ys
    induction xs with
    | nil => rfl
    | cons x xs ih => simp [execute_cleanup, ih]
  · intro id out err h
    unfold cleanupOne
    rw [h]
  · intro id out err h
    unfold cleanupOne
    rw [h]

/-- Cleanup snapshot in which the script fails exactly for TASK_002. -/
def crewC9World : CleanupWorld :=
  { repoPath := "/repo"
    scriptExists := true
    run := fun args =>
      if args.getD 2 "" = "TASK_002" then ScriptOutcome.exited false "" "boom"
      else ScriptOutcome.exited true "done" "" }

/-- Claim C9, witness (Scenario E): two ids where the script fails for the
second give exactly two results, and the second is the tagged failure with
the captured stderr. -/
theorem crew_c9_witness :
    (execute_cleanup crewC9World ["TASK_001", "TASK_002"] false false).length
      = 2 ∧
    cleanupOne crewC9World false false "TASK_002" =
      { task_id := "TASK_002", success := false, message := "Failed: boom" } :=
  ⟨(crew_c9_theorem crewC9World false false ["TASK_001", "TASK_002"]).1,
    (crew_c9_theorem crewC9World false false
      ["TASK_001", "TASK_002"]).2.2.2.2 "TASK_002" "" "boom" (by decide)⟩

/-- The synthesized failure recorded when a cleanup worker panics. -/
def panickedResult : CleanupResult :=
  { task_id := "?", success := false, message := "Thread panicked" }

/-- Claim C10.  Each poll of an Executing popup: a still-running worker
leaves the state unchanged (the handle is put back); a finished worker's
result is captured and the step moves to Done; a panicked worker (no
result) synthesizes the fixed failure — a single failure result in the
cleanup flow — and the step still reaches Done. -/
theorem crew_c10_theorem (p : CreatePopupM) (q : CleanupPopupM) :
    (∀ v, p.step = CreateStep.executing →
      p.handle = some (HandleState.done (some v)) →
      create_popup_check_completion p =
        { step := CreateStep.done, handle := none, result := some v }) ∧
    (p.step = CreateStep.executing →
      p.handle = some (HandleState.done none) →
      create_popup_check_completion p =
        { step := CreateStep.done, handle := none,
          result := some (Except.error "Thread panicked") }) ∧
    (p.step = CreateStep.executing → p.handle = some HandleState.running →
      create_popup_check_completion p = p) ∧
    (∀ rs, q.step = CleanupStep.executing →
      q.handle = some (HandleState.done (some rs)) →
      cleanup_popup_check_completion q =
        { step := CleanupStep.done, handle := none, results := some rs,
          scroll := 0 }) ∧
    (q.step = CleanupStep.executing →
      q.handle = some (HandleState.done none) →
      cleanup_popup_check_completion q =
        { step := CleanupStep.done, handle := none,
          results := some [panickedResult], scroll := 0 } ∧
      ((cleanup_popup_check_completion q).results.getD []).length = 1) ∧
    (q.step = CleanupStep.executing → q.handle = some HandleState.running →
      cleanup_popup_check_completion q = q) := by
  refine ⟨?_, ?_, ?_, ?_, ?_, ?_⟩
  · intro v hs hh
    unfold create_popup_check_completion
    rw [if_pos hs, hh]
    rfl
  · intro hs hh
    unfold create_popup_check_completion
    rw [if_pos hs, hh]
    rfl
  · intro hs hh
    unfold create_popup_check_completion
    rw [if_pos hs, hh]
  · intro rs hs hh
    unfold cleanup_popup_check_completion
    rw [if_pos hs, hh]
    rfl
  · intro hs hh
    constructor
    · unfold cleanup_popup_check_completion
      rw [if_pos hs, hh]
      rfl
    · unfold cleanup_popup_check_completion
      rw [if_pos hs, hh]
      rfl
  · intro hs hh
    unfold cleanup_popup_check_completion
    rw [if_pos hs, hh]

/-- An Executing cleanup popup whose worker has panicked. -/
def crewC10Popup : CleanupPopupM :=
  { step := CleanupStep.executing, handle := some (HandleState.done none),
    results := none, scroll := 7 }

/-- An idle create popup (used only to instantiate the theorem). -/
def crewC10CreatePopup : CreatePopupM :=
  { step := CreateStep.inputDescription, handle := none, result := none }

/-- Claim C10, witness: polling the panicked cleanup popup reaches Done with
the single synthesized failure result. -/
theorem crew_c10_witness :
    cleanup_popup_check_completion crewC10Popup =
      { step := CleanupStep.done, handle := none,
        results := some [panickedResult], scroll := 0 } :=
  ((crew_c10_theorem crewC10CreatePopup crewC10Popup).2.2.2.2.1 rfl rfl).1
